import Mathlib

/-!
# MT6701 SSI angle sensor driver: a shallow embedding of `MT6701.hpp`

The driver polls a magnetic angle sensor over SPI.  Three parts of the class
are embedded here:

* the frame decoder (`DecodeFrame`),
* the sequence-counter sample cache (`StoreSample`, `LoadCache` and the public
  readers built on it),
* the transfer controller (`Start`, `Stop`, `TryStartTransfer`,
  `OnTransferDone`).

Machine integers are natural numbers with explicit reductions modulo `2^w`.
Single-precision floats are represented by the rational number they denote,
and every float operation rounds its exact result to binary32
(round to nearest, ties to even).  The hardware the class borrows (select
line, SPI bus) is represented by three extra fields of the state: the level
last written to the select line, the number of accepted bus requests whose
completion has not been delivered yet, and a log of the calls made.

Operations of the driver are atomic in the step model (`Reachable`, `runOps`).
The cache alone is also studied with the statements of `StoreSample` and the
loads of `LoadCache` interleaved one by one (`Conc`).
-/

namespace MT6701

/-! ## Single-precision arithmetic -/

/-- A finite binary32 value, represented by the rational number it denotes. -/
abbrev F32 := ℚ

/-- Nearest integer to a rational, a tie going to the even neighbour. -/
def roundHalfEven (q : ℚ) : ℤ :=
  if q - ⌊q⌋ < 1 / 2 then ⌊q⌋
  else if 1 / 2 < q - ⌊q⌋ then ⌊q⌋ + 1
  else if ⌊q⌋ % 2 = 0 then ⌊q⌋ else ⌊q⌋ + 1

/-- Binade exponent used to round `q` to binary32: `⌊log₂ |q|⌋`, held at the
smallest normal exponent `-126` below it (subnormal range). -/
def f32Exp (q : ℚ) : ℤ := max (Int.log 2 |q|) (-126)

/-- Spacing of binary32 values in the binade of `q` (24 significant bits). -/
def f32Ulp (q : ℚ) : ℚ := (2 : ℚ) ^ (f32Exp q - 23)

/-- Rounding of an exact result to binary32, round to nearest, ties to even.
Results are finite throughout the driver (all magnitudes are below 2^15), so
overflow to infinity is not represented. -/
def f32Round (q : ℚ) : F32 := (roundHalfEven (q / f32Ulp q) : ℚ) * f32Ulp q

/-- Conversion `static_cast<float>(n)` of an unsigned integer. -/
def f32OfNat (n : Nat) : F32 := f32Round (n : ℚ)

/-- Single-precision product `x * y`. -/
def f32Mul (x y : F32) : F32 := f32Round (x * y)

/-- Single-precision quotient `x / y`. -/
def f32Div (x y : F32) : F32 := f32Round (x / y)

/-- Single-precision difference `x - y`. -/
def f32Sub (x y : F32) : F32 := f32Round (x - y)

/-! ## Constants of the class -/

def FRAME_MASK : Nat := 0x00FFFFFF

def PAYLOAD_MASK : Nat := 0x0003FFFF

def ANGLE_RESOLUTION : Nat := 16384

def DEFAULT_ANGLE_RAD : F32 := f32Round 0.0

/-- The literal `6.28318530717958647692f`. -/
def TWO_PI_F : F32 := f32Round 6.28318530717958647692

def RAD_PER_LSB : F32 := f32Div TWO_PI_F (f32OfNat ANGLE_RESOLUTION)

/-! ## External declarations -/

/-- Modelled from the spec: the status code `LibXR::ErrorCode` of the
framework, declared in `libxr_def.hpp` outside this repository.  The driver
names `OK` and `EMPTY`; every other status the bus can report is `OTHER`. -/
inductive ErrorCode where
  | OK
  | EMPTY
  | OTHER (code : Nat)
  deriving DecidableEq

/-- Conversion to `uint8_t`. -/
def u8 (n : Nat) : Nat := n % 256

/-- Conversion to `uint16_t`. -/
def u16 (n : Nat) : Nat := n % 65536

/-- Conversion to `uint32_t`. -/
def u32 (n : Nat) : Nat := n % 4294967296

/-! ## Data model -/

/-- A buffer `uint8_t buf[3]`. -/
structure Buf3 where
  b0 : Nat := 0
  b1 : Nat := 0
  b2 : Nat := 0
  deriving DecidableEq

/-- The value of `sizeof(buf)` for a three-byte buffer. -/
def Buf3.size (_ : Buf3) : Nat := 3

/-- The bytes of a buffer in order. -/
def Buf3.bytes (b : Buf3) : List Nat := [b.b0, b.b1, b.b2]

structure CacheData where
  angle_rad : F32 := DEFAULT_ANGLE_RAD
  raw_mg : Nat := 0
  deriving DecidableEq

/-- A call made by the driver on the hardware it borrows, or a raised fault. -/
inductive Effect where
  /-- The call `mt6701_spi_cs_->Write(level)`. -/
  | CsWrite (level : Bool)
  /-- The call `mt6701_spi_->ReadAndWrite` with the sizes of the receive and
  transmit buffers, the transmitted bytes and the interrupt-context hint. -/
  | ReadAndWrite (rx_size tx_size : Nat) (tx : List Nat) (in_isr : Bool)
  /-- The fault `ASSERT_FROM_CALLBACK(false, in_isr)`. -/
  | Fault (in_isr : Bool)
  deriving DecidableEq

/-- The data members of the class, followed by the state of the hardware. -/
structure State where
  cache_seq : Nat := 0
  cache_valid : Bool := false
  running : Bool := false
  transfer_pending : Bool := false
  cache_data : CacheData := {}
  tx_buf : Buf3 := {}
  rx_buf : Buf3 := {}
  /-- Level last written to the select line. -/
  cs_level : Bool := false
  /-- Bus requests accepted by `ReadAndWrite` and not yet completed. -/
  outstanding : Nat := 0
  /-- Calls made on the hardware and faults raised, oldest first. -/
  trace : List Effect := []
  deriving DecidableEq

/-! ## Sample cache -/

/-- One pass of the body of `while (true)` in `LoadCache`; `none` asks for
another pass.  No writer runs during the call, so both loads of the counter
see the same state. -/
def LoadCache.body (s : State) : Option (ErrorCode × CacheData) :=
  let SEQ_BEGIN := s.cache_seq
  if (SEQ_BEGIN &&& 1) != 0 then none
  else
    let cache := s.cache_data
    let SEQ_END := s.cache_seq
    if SEQ_BEGIN == SEQ_END then some (ErrorCode.OK, cache) else none

/-- The loop of `LoadCache`, cut after `fuel` passes. -/
def LoadCache.loop (s : State) : Nat → Option (ErrorCode × CacheData)
  | 0 => none
  | fuel + 1 =>
    match LoadCache.body s with
    | some r => some r
    | none => LoadCache.loop s fuel

/-- The method `LoadCache(cache)`: status and the content of `cache` on
return, or `none` when the loop has not returned within `fuel` passes. -/
def LoadCache (fuel : Nat) (s : State) (cache : CacheData) :
    Option (ErrorCode × CacheData) :=
  if !s.cache_valid then some (ErrorCode.EMPTY, cache)
  else LoadCache.loop s fuel

def ReadAngleRad (fuel : Nat) (s : State) : Option F32 :=
  let cache : CacheData := {}
  match LoadCache fuel s cache with
  | none => none
  | some (err, cache) =>
    if err ≠ ErrorCode.OK then some DEFAULT_ANGLE_RAD else some cache.angle_rad

def ReadRawMg (fuel : Nat) (s : State) : Option Nat :=
  let cache : CacheData := {}
  match LoadCache fuel s cache with
  | none => none
  | some (err, cache) =>
    if err ≠ ErrorCode.OK then some 0 else some cache.raw_mg

def IsOverspeed (fuel : Nat) (s : State) : Option Bool :=
  (ReadRawMg fuel s).map fun mg => (mg &&& 0x08) != 0

def IsPushDetected (fuel : Nat) (s : State) : Option Bool :=
  (ReadRawMg fuel s).map fun mg => (mg &&& 0x04) != 0

def IsFieldTooStrong (fuel : Nat) (s : State) : Option Bool :=
  (ReadRawMg fuel s).map fun mg => u8 (mg &&& 0x03) == 1

def IsFieldTooWeak (fuel : Nat) (s : State) : Option Bool :=
  (ReadRawMg fuel s).map fun mg => u8 (mg &&& 0x03) == 2

def GetMagnetStrength (fuel : Nat) (s : State) : Option Nat :=
  (ReadRawMg fuel s).map fun mg => u8 (mg &&& 0x03)

def GetRawMg (fuel : Nat) (s : State) : Option Nat := ReadRawMg fuel s

def StoreSample (angle_rad : F32) (raw_mg : Nat) (s : State) : State :=
  let s := { s with cache_seq := u32 (s.cache_seq + 1) }
  let s := { s with cache_data := { s.cache_data with angle_rad := angle_rad } }
  let s := { s with cache_data := { s.cache_data with raw_mg := u8 (raw_mg &&& 0x0F) } }
  let s := { s with cache_seq := u32 (s.cache_seq + 1) }
  { s with cache_valid := true }

/-! ## Frame decoder -/

/-- The function `DecodeFrame(frame24, angle_rad)`: the returned flag and the
content of `angle_rad` on return.  `crc6 data bits` stands for
`LibXR::CRC6::CalculateBits`, which lives outside this repository. -/
def DecodeFrame (crc6 : Nat → Nat → Nat) (frame24 : Nat) (angle_rad : F32) :
    Bool × F32 :=
  let CRC_RX := u8 (frame24 &&& 0x3F)
  let CRC_CALC := u8 (crc6 ((frame24 >>> 6) &&& PAYLOAD_MASK) 18)
  if CRC_RX != CRC_CALC then (false, angle_rad)
  else
    let RAW14 := u16 ((frame24 >>> 10) &&& 0x3FFF)
    (true, f32Mul (f32OfNat RAW14) RAD_PER_LSB)

/-! ## Transfer controller -/

/-- The call `mt6701_spi_cs_->Write(level)`. -/
def csWrite (level : Bool) (s : State) : State :=
  { s with cs_level := level, trace := s.trace ++ [Effect.CsWrite level] }

/-- The fault `ASSERT_FROM_CALLBACK(false, in_isr)`: it is recorded and the
caller goes on. -/
def assertFail (in_isr : Bool) (s : State) : State :=
  { s with trace := s.trace ++ [Effect.Fault in_isr] }

/-- The call `mt6701_spi_->ReadAndWrite(rx_buf_, tx_buf_, spi_op_, in_isr)`
answered with status `bus`: an accepted request stays outstanding until its
completion is delivered, a rejected one is never completed. -/
def busReadAndWrite (in_isr : Bool) (bus : ErrorCode) (s : State) : State :=
  { s with
    outstanding := if bus = ErrorCode.OK then s.outstanding + 1 else s.outstanding
    trace := s.trace ++
      [Effect.ReadAndWrite s.rx_buf.size s.tx_buf.size s.tx_buf.bytes in_isr] }

/-- The method `TryStartTransfer(in_isr)`; `bus` is the status with which the
bus answers the request, if one is issued. -/
def TryStartTransfer (in_isr : Bool) (bus : ErrorCode) (s : State) : State :=
  if !s.running then s
  else if s.transfer_pending then s
  else
    let s := { s with transfer_pending := true }
    let s := csWrite false s
    let s := busReadAndWrite in_isr bus s
    let s :=
      if bus ≠ ErrorCode.OK then
        let s := csWrite true s
        let s := { s with transfer_pending := false }
        let s := { s with running := false }
        assertFail in_isr s
      else s
    if in_isr && !s.transfer_pending then
      let s := { s with running := false }
      assertFail in_isr s
    else s

def Start (bus : ErrorCode) (s : State) : State :=
  let WAS_RUNNING := s.running
  let s := { s with running := true }
  if !WAS_RUNNING then TryStartTransfer false bus s else s

def Stop (s : State) : State := { s with running := false }

/-- The 24-bit frame assembled from the receive buffer in `OnTransferDone`. -/
def rxFrame (s : State) : Nat :=
  ((u8 s.rx_buf.b0 <<< 16) ||| (u8 s.rx_buf.b1 <<< 8) ||| u8 s.rx_buf.b2) &&& FRAME_MASK

/-- The method `OnTransferDone(in_isr, err)`; `bus` is the status with which
the bus answers the next request, if one is issued. -/
def OnTransferDone (crc6 : Nat → Nat → Nat) (in_isr : Bool) (err bus : ErrorCode)
    (s : State) : State :=
  let s := csWrite true s
  if err ≠ ErrorCode.OK then
    let s := { s with transfer_pending := false }
    let s := { s with running := false }
    assertFail in_isr s
  else
    let frame24 := rxFrame s
    let angle_rad := DEFAULT_ANGLE_RAD
    let MG_RAW := u8 ((frame24 >>> 6) &&& 0x0F)
    let dec := DecodeFrame crc6 frame24 angle_rad
    let s := if dec.1 then StoreSample dec.2 MG_RAW s else s
    let s := { s with transfer_pending := false }
    if s.running then TryStartTransfer in_isr bus s else s

/-- The bus finishes the outstanding transfer: the three received bytes are
in `rx_buf_` and the request is no longer outstanding. -/
def deliver (b0 b1 b2 : Nat) (s : State) : State :=
  { s with
    rx_buf := { b0 := u8 b0, b1 := u8 b1, b2 := u8 b2 }
    outstanding := s.outstanding - 1 }

/-- Completion of the outstanding transfer with received bytes `b0 b1 b2` and
status `err`: the bus fills the buffer and invokes the completion callback. -/
def complete (crc6 : Nat → Nat → Nat) (in_isr : Bool) (err : ErrorCode)
    (b0 b1 b2 : Nat) (bus : ErrorCode) (s : State) : State :=
  OnTransferDone crc6 in_isr err bus (deliver b0 b1 b2 s)

/-- The state of a driver object when its constructor returns: members at
their initialisers, select line written high, SPI configured, `Start()`. -/
def construct (bus : ErrorCode) : State :=
  Start bus (csWrite true {})

/-- The frame `b0<<16 | b1<<8 | b2` carried by three received bytes. -/
def frame24 (b0 b1 b2 : Nat) : Nat := (u8 b0 <<< 16) ||| (u8 b1 <<< 8) ||| u8 b2

/-- States the driver reaches from construction through `Start`, `Stop` and
completions of the outstanding transfer, under every answer of the bus. -/
inductive Reachable (crc6 : Nat → Nat → Nat) : State → Prop where
  | construct (bus : ErrorCode) : Reachable crc6 (construct bus)
  | start (bus : ErrorCode) {s : State} :
      Reachable crc6 s → Reachable crc6 (Start bus s)
  | stop {s : State} : Reachable crc6 s → Reachable crc6 (Stop s)
  | complete (in_isr : Bool) (err : ErrorCode) (b0 b1 b2 : Nat) (bus : ErrorCode)
      {s : State} :
      Reachable crc6 s → 0 < s.outstanding →
      Reachable crc6 (complete crc6 in_isr err b0 b1 b2 bus s)

/-- The level most recently written to the select line according to a log
of calls, if any write is recorded. -/
def lastCsWrite : List Effect → Option Bool
  | [] => none
  | e :: es =>
    match lastCsWrite es with
    | some level => some level
    | none =>
      match e with
      | Effect.CsWrite level => some level
      | _ => none


/-! ## Operations of the step model -/

/-- An operation on the driver seen from outside: a call of `Start()` or
`Stop()`, or the completion of a transfer.  `bus` is the answer of the bus to
the request the operation may issue. -/
inductive Op where
  | start (bus : ErrorCode)
  | stop
  | complete (in_isr : Bool) (err : ErrorCode) (b0 b1 b2 : Nat) (bus : ErrorCode)

def applyOp (crc6 : Nat → Nat → Nat) (s : State) : Op → State
  | Op.start bus => Start bus s
  | Op.stop => Stop s
  | Op.complete in_isr err b0 b1 b2 bus => complete crc6 in_isr err b0 b1 b2 bus s

def runOps (crc6 : Nat → Nat → Nat) (s : State) (ops : List Op) : State :=
  ops.foldl (applyOp crc6) s

/-- Whether an operation is a completion with status OK whose frame passes
the check. -/
def Op.publishes (crc6 : Nat → Nat → Nat) : Op → Bool
  | Op.complete _ err b0 b1 b2 _ =>
    decide (err = ErrorCode.OK) &&
      decide (frame24 b0 b1 b2 % 64 = u8 (crc6 (frame24 b0 b1 b2 / 64) 18))
  | _ => false

/-! ## The stores of `StoreSample`, one at a time -/

/-- The statement `cache_seq_.fetch_add(1u, ...)`. -/
def StoreSample.incSeq (s : State) : State :=
  { s with cache_seq := u32 (s.cache_seq + 1) }

/-- The statement `cache_data_.angle_rad = angle_rad`. -/
def StoreSample.writeAngle (angle_rad : F32) (s : State) : State :=
  { s with cache_data := { s.cache_data with angle_rad := angle_rad } }

/-- The statement `cache_data_.raw_mg = static_cast<uint8_t>(raw_mg & 0x0Fu)`. -/
def StoreSample.writeMg (raw_mg : Nat) (s : State) : State :=
  { s with cache_data := { s.cache_data with raw_mg := u8 (raw_mg &&& 0x0F) } }

/-- The statement `cache_valid_.store(true, ...)`. -/
def StoreSample.setValid (s : State) : State :=
  { s with cache_valid := true }

/-! ## One writer and one reader, interleaved load by load

`StoreSample` runs in the completion handler while `LoadCache` runs in a
reader thread.  Every load and store of the two bodies is one atomic step and
a schedule chooses whose step comes next.  The copy `cache = cache_data_` is
two loads, the angle first.  A reader never writes shared memory, so one
reader stands for any number of them. -/

/-- Where the writer stands: outside `StoreSample`, or inside the call
`StoreSample(a, d)` after one of its first four statements. -/
inductive WriterPc where
  | idle
  | afterInc1 (a : F32) (d : Nat)
  | afterAngle (a : F32) (d : Nat)
  | afterMg (a : F32) (d : Nat)
  | afterInc2 (a : F32) (d : Nat)
  deriving DecidableEq

/-- Where the reader stands inside `LoadCache`: before one of its five loads,
or returned with a status. -/
inductive ReaderPc where
  | loadValid
  | loadBegin
  | copyAngle
  | copyMg
  | loadEnd
  | done (err : ErrorCode)
  deriving DecidableEq

/-- Shared memory, the two program counters, the locals of the reader, and
bookkeeping that no step reads: how many increments of the counter have been
performed, which samples have been published (second increment done), how
many `StoreSample` calls have returned, and what those numbers were when the
reader performed its loads. -/
structure Conc where
  mem : State := {}
  wpc : WriterPc := WriterPc.idle
  rpc : ReaderPc := ReaderPc.loadValid
  /-- The local `SEQ_BEGIN` of the reader. -/
  SEQ_BEGIN : Nat := 0
  /-- The buffer `cache` the reader fills. -/
  cache : CacheData := {}
  /-- Increments of `cache_seq_` performed so far, not reduced modulo 2^32. -/
  incs : Nat := 0
  /-- Samples of the `StoreSample` calls that have performed their second
  increment, oldest first. -/
  published : List CacheData := []
  /-- Number of `StoreSample` calls that have returned. -/
  returned : Nat := 0
  /-- Value of `incs` when the reader loaded `SEQ_BEGIN`. -/
  beginIncs : Nat := 0
  /-- Value of `incs` when the reader loaded `SEQ_END`. -/
  endIncs : Nat := 0
  /-- Value of `returned` when the reader loaded the validity flag. -/
  returnedAtValid : Nat := 0

/-- Who moves next. -/
inductive Action where
  /-- The writer enters `StoreSample(a, d)` and performs its first increment. -/
  | writerCall (a : F32) (d : Nat)
  /-- The writer performs the next statement of the call in progress. -/
  | writerStep
  /-- The reader, having returned, enters `LoadCache(cache)` again. -/
  | readerCall (cache : CacheData)
  /-- The reader performs the next load of the call in progress. -/
  | readerStep

/-- One atomic step; an action that is not enabled leaves the state as is. -/
def Conc.step (c : Conc) : Action → Conc
  | Action.writerCall a d =>
    match c.wpc with
    | WriterPc.idle =>
      { c with
        mem := StoreSample.incSeq c.mem
        wpc := WriterPc.afterInc1 a d
        incs := c.incs + 1 }
    | _ => c
  | Action.writerStep =>
    match c.wpc with
    | WriterPc.idle => c
    | WriterPc.afterInc1 a d =>
      { c with mem := StoreSample.writeAngle a c.mem, wpc := WriterPc.afterAngle a d }
    | WriterPc.afterAngle a d =>
      { c with mem := StoreSample.writeMg d c.mem, wpc := WriterPc.afterMg a d }
    | WriterPc.afterMg a d =>
      { c with
        mem := StoreSample.incSeq c.mem
        wpc := WriterPc.afterInc2 a d
        incs := c.incs + 1
        published := c.published ++ [{ angle_rad := a, raw_mg := u8 (d &&& 0x0F) }] }
    | WriterPc.afterInc2 _ _ =>
      { c with
        mem := StoreSample.setValid c.mem
        wpc := WriterPc.idle
        returned := c.returned + 1 }
  | Action.readerCall cache =>
    match c.rpc with
    | ReaderPc.done _ => { c with rpc := ReaderPc.loadValid, cache := cache }
    | _ => c
  | Action.readerStep =>
    match c.rpc with
    | ReaderPc.loadValid =>
      if !c.mem.cache_valid then
        { c with rpc := ReaderPc.done ErrorCode.EMPTY, returnedAtValid := c.returned }
      else { c with rpc := ReaderPc.loadBegin, returnedAtValid := c.returned }
    | ReaderPc.loadBegin =>
      if (c.mem.cache_seq &&& 1) != 0 then
        { c with SEQ_BEGIN := c.mem.cache_seq, beginIncs := c.incs, rpc := ReaderPc.loadBegin }
      else
        { c with SEQ_BEGIN := c.mem.cache_seq, beginIncs := c.incs, rpc := ReaderPc.copyAngle }
    | ReaderPc.copyAngle =>
      { c with
        cache := { c.cache with angle_rad := c.mem.cache_data.angle_rad }
        rpc := ReaderPc.copyMg }
    | ReaderPc.copyMg =>
      { c with
        cache := { c.cache with raw_mg := c.mem.cache_data.raw_mg }
        rpc := ReaderPc.loadEnd }
    | ReaderPc.loadEnd =>
      if c.SEQ_BEGIN == c.mem.cache_seq then
        { c with endIncs := c.incs, rpc := ReaderPc.done ErrorCode.OK }
      else { c with endIncs := c.incs, rpc := ReaderPc.loadBegin }
    | ReaderPc.done _ => c

/-- The state after a schedule. -/
def Conc.run (c : Conc) (sched : List Action) : Conc := sched.foldl Conc.step c

/-- The five steps of one `StoreSample(a, d)` call, run without a break. -/
def publishSteps (a : F32) (d : Nat) : List Action :=
  [Action.writerCall a d, Action.writerStep, Action.writerStep, Action.writerStep,
   Action.writerStep]

/-- The steps of `n` calls `StoreSample(a, d)` in a row. -/
def publishMany (a : F32) (d : Nat) : Nat → List Action
  | 0 => []
  | n + 1 => publishSteps a d ++ publishMany a d n

/-- What links the bookkeeping to memory and to the writer's position. -/
def Conc.WriterInv (c : Conc) : Prop :=
  c.mem.cache_seq = c.incs % 4294967296 ∧
  (c.mem.cache_valid = false ↔ c.returned = 0) ∧
  (c.mem.cache_valid = true → c.published ≠ []) ∧
  match c.wpc with
  | WriterPc.idle => c.incs % 2 = 0 ∧ (c.published ≠ [] → c.mem.cache_data ∈ c.published)
  | WriterPc.afterInc1 _ _ => c.incs % 2 = 1
  | WriterPc.afterAngle a _ => c.incs % 2 = 1 ∧ c.mem.cache_data.angle_rad = a
  | WriterPc.afterMg a d =>
    c.incs % 2 = 1 ∧ c.mem.cache_data = { angle_rad := a, raw_mg := u8 (d &&& 0x0F) }
  | WriterPc.afterInc2 _ _ =>
    c.incs % 2 = 0 ∧ c.published ≠ [] ∧ c.mem.cache_data ∈ c.published

/-- What the reader knows at each of its positions. -/
def Conc.ReaderInv (c : Conc) : Prop :=
  match c.rpc with
  | ReaderPc.loadValid => True
  | ReaderPc.loadBegin => c.published ≠ []
  | ReaderPc.copyAngle =>
    c.published ≠ [] ∧ c.beginIncs ≤ c.incs ∧ c.beginIncs % 2 = 0 ∧
    c.SEQ_BEGIN = c.beginIncs % 4294967296
  | ReaderPc.copyMg =>
    c.published ≠ [] ∧ c.beginIncs ≤ c.incs ∧ c.beginIncs % 2 = 0 ∧
    c.SEQ_BEGIN = c.beginIncs % 4294967296 ∧
    (c.incs = c.beginIncs → c.cache.angle_rad = c.mem.cache_data.angle_rad)
  | ReaderPc.loadEnd =>
    c.published ≠ [] ∧ c.beginIncs ≤ c.incs ∧ c.beginIncs % 2 = 0 ∧
    c.SEQ_BEGIN = c.beginIncs % 4294967296 ∧
    (c.incs = c.beginIncs → c.cache = c.mem.cache_data)
  | ReaderPc.done ErrorCode.OK =>
    c.endIncs < c.beginIncs + 4294967296 → c.cache ∈ c.published
  | ReaderPc.done ErrorCode.EMPTY => c.returnedAtValid = 0
  | ReaderPc.done (ErrorCode.OTHER _) => False

/-! ## Rounding to binary32 -/

theorem roundHalfEven_sub_le (q : ℚ) : |(roundHalfEven q : ℚ) - q| ≤ 1 / 2 := by
  have h0 := Int.floor_le q
  have h1 := Int.lt_floor_add_one q
  unfold roundHalfEven
  split_ifs <;> push_cast <;> rw [abs_le] <;> constructor <;> linarith

theorem roundHalfEven_eq_of_abs_lt (q : ℚ) (n : ℤ) (h : |q - n| < 1 / 2) :
    roundHalfEven q = n := by
  have h1 := roundHalfEven_sub_le q
  have h2 : |((roundHalfEven q - n : ℤ) : ℚ)| < 1 := by
    push_cast
    calc |(roundHalfEven q : ℚ) - n|
        = |((roundHalfEven q : ℚ) - q) + (q - n)| := by ring_nf
      _ ≤ |(roundHalfEven q : ℚ) - q| + |q - n| := abs_add _ _
      _ < 1 := by linarith
  have h3 : |roundHalfEven q - n| < 1 := by exact_mod_cast h2
  have h4 := Int.abs_lt_one_iff.1 h3
  omega

theorem roundHalfEven_nonneg {q : ℚ} (h : 0 ≤ q) : 0 ≤ roundHalfEven q := by
  have h0 : 0 ≤ ⌊q⌋ := Int.floor_nonneg.2 h
  unfold roundHalfEven
  split_ifs <;> omega

theorem f32Ulp_pos (q : ℚ) : 0 < f32Ulp q := zpow_pos (by norm_num) _

theorem f32Exp_eq {q : ℚ} {e : ℤ} (he : -126 ≤ e) (h1 : (2 : ℚ) ^ e ≤ |q|)
    (h2 : |q| < (2 : ℚ) ^ (e + 1)) : f32Exp q = e := by
  have hpos : 0 < |q| := lt_of_lt_of_le (zpow_pos (by norm_num) e) h1
  have a : e ≤ Int.log 2 |q| :=
    (Int.zpow_le_iff_le_log (by norm_num) hpos).1 (by exact_mod_cast h1)
  have b : Int.log 2 |q| < e + 1 :=
    (Int.lt_zpow_iff_log_lt (by norm_num) hpos).1 (by exact_mod_cast h2)
  unfold f32Exp
  omega

/-- Evaluation of a rounding: the binade of `q` and the nearest multiple of
the spacing determine the result. -/
theorem f32Round_eq {q : ℚ} (e n : ℤ) (he : -126 ≤ e) (h1 : (2 : ℚ) ^ e ≤ |q|)
    (h2 : |q| < (2 : ℚ) ^ (e + 1)) (hn : |q / (2 : ℚ) ^ (e - 23) - n| < 1 / 2) :
    f32Round q = n * (2 : ℚ) ^ (e - 23) := by
  unfold f32Round f32Ulp
  rw [f32Exp_eq he h1 h2, roundHalfEven_eq_of_abs_lt _ n hn]

theorem f32Round_zero : f32Round 0 = 0 := by
  simp [f32Round, roundHalfEven]

theorem f32Round_nonneg {q : ℚ} (h : 0 ≤ q) : 0 ≤ f32Round q := by
  unfold f32Round
  have h1 : 0 ≤ roundHalfEven (q / f32Ulp q) :=
    roundHalfEven_nonneg (div_nonneg h (f32Ulp_pos q).le)
  have h2 : (0 : ℚ) ≤ roundHalfEven (q / f32Ulp q) := by exact_mod_cast h1
  exact mul_nonneg h2 (f32Ulp_pos q).le

/-- The rounding error is at most half the spacing of the binade. -/
theorem f32Round_sub_le (q : ℚ) : |f32Round q - q| ≤ f32Ulp q / 2 := by
  have hu := f32Ulp_pos q
  have h := roundHalfEven_sub_le (q / f32Ulp q)
  have e : f32Round q - q = ((roundHalfEven (q / f32Ulp q) : ℚ) - q / f32Ulp q) * f32Ulp q := by
    unfold f32Round
    field_simp
  rw [e, abs_mul, abs_of_pos hu]
  nlinarith

/-- Below 8 the spacing of binary32 values is at most `2^-21`. -/
theorem f32Ulp_le_of_lt_eight {q : ℚ} (h0 : 0 ≤ q) (h8 : q < 8) :
    f32Ulp q ≤ 1 / 2097152 := by
  have he : f32Exp q ≤ 2 := by
    unfold f32Exp
    rcases eq_or_lt_of_le h0 with h | h
    · rw [← h]
      simp
    · have hq : 0 < |q| := by rwa [abs_of_pos h]
      have : Int.log 2 |q| < 3 :=
        (Int.lt_zpow_iff_log_lt (by norm_num) hq).1 (by
          rw [abs_of_pos h]
          norm_num
          exact h8)
      omega
  unfold f32Ulp
  calc (2 : ℚ) ^ (f32Exp q - 23) ≤ (2 : ℚ) ^ ((2 : ℤ) - 23) :=
        zpow_le_zpow_right₀ (by norm_num) (by omega)
    _ = 1 / 2097152 := by norm_num



/-- Binary32 values are fixed by rounding: an integer of fewer than 25 bits
scaled by a power of two not below the smallest subnormal rounds to itself. -/
theorem f32Round_dyadic (k j : ℤ) (hk : |k| < 2 ^ 24) (hj : -149 ≤ j) :
    f32Round ((k : ℚ) * (2 : ℚ) ^ j) = (k : ℚ) * (2 : ℚ) ^ j := by
  rcases eq_or_ne k 0 with rfl | hk0
  · simp [f32Round_zero]
  have h2j : (0 : ℚ) < (2 : ℚ) ^ j := zpow_pos (by norm_num) j
  have hq : 0 < |(k : ℚ) * (2 : ℚ) ^ j| := by
    rw [abs_pos]
    exact mul_ne_zero (by exact_mod_cast hk0) h2j.ne'
  have hlog : Int.log 2 |(k : ℚ) * (2 : ℚ) ^ j| < 24 + j := by
    apply (Int.lt_zpow_iff_log_lt (by norm_num) hq).1
    have hk' : |(k : ℚ)| < (2 : ℚ) ^ (24 : ℤ) := by
      have h : |(k : ℚ)| < 2 ^ 24 := by exact_mod_cast hk
      norm_num at h ⊢
      exact h
    rw [abs_mul, abs_of_pos h2j]
    push_cast
    rw [zpow_add₀ (by norm_num : (2 : ℚ) ≠ 0)]
    exact mul_lt_mul_of_pos_right hk' h2j
  have he : f32Exp ((k : ℚ) * (2 : ℚ) ^ j) - 23 ≤ j := by
    unfold f32Exp
    omega
  obtain ⟨m, hm⟩ := Int.eq_ofNat_of_zero_le (sub_nonneg.2 he)
  have hsplit : (2 : ℚ) ^ j = (2 : ℚ) ^ m * f32Ulp ((k : ℚ) * (2 : ℚ) ^ j) := by
    unfold f32Ulp
    rw [← zpow_natCast, ← zpow_add₀ (by norm_num : (2 : ℚ) ≠ 0)]
    congr 1
    omega
  have hu := f32Ulp_pos ((k : ℚ) * (2 : ℚ) ^ j)
  have hdiv : (k : ℚ) * (2 : ℚ) ^ j / f32Ulp ((k : ℚ) * (2 : ℚ) ^ j) =
      ((k * 2 ^ m : ℤ) : ℚ) := by
    rw [div_eq_iff hu.ne']
    push_cast
    rw [mul_assoc, ← hsplit]
  have hr : roundHalfEven ((k : ℚ) * (2 : ℚ) ^ j / f32Ulp ((k : ℚ) * (2 : ℚ) ^ j)) =
      k * 2 ^ m := by
    apply roundHalfEven_eq_of_abs_lt
    rw [hdiv]
    simp
  unfold f32Round
  rw [hr]
  push_cast
  rw [mul_assoc, ← hsplit]

theorem f32OfNat_eq (n : Nat) (h : n < 16777216) : f32OfNat n = (n : ℚ) := by
  have := f32Round_dyadic (n : ℤ) 0 (by rw [abs_of_nonneg (by omega)]; omega) (by norm_num)
  simpa [f32OfNat] using this

theorem DEFAULT_ANGLE_RAD_eq : DEFAULT_ANGLE_RAD = 0 := by
  unfold DEFAULT_ANGLE_RAD
  norm_num [f32Round_zero]

theorem TWO_PI_F_eq : TWO_PI_F = 13176795 / 2097152 := by
  unfold TWO_PI_F
  rw [f32Round_eq 2 13176795 (by norm_num) (by rw [abs_of_pos] <;> norm_num)
    (by rw [abs_of_pos] <;> norm_num) (by rw [abs_lt]; constructor <;> norm_num)]
  norm_num

theorem RAD_PER_LSB_eq : RAD_PER_LSB = 13176795 / 34359738368 := by
  unfold RAD_PER_LSB f32Div
  rw [TWO_PI_F_eq, f32OfNat_eq _ (by decide)]
  have := f32Round_dyadic 13176795 (-35) (by norm_num) (by norm_num)
  norm_num [ANGLE_RESOLUTION] at this ⊢
  exact this



/-! ## The angle computed by `DecodeFrame` -/

/-- The product of `DecodeFrame` for a 14-bit position: one rounding of the
exact product with `RAD_PER_LSB`. -/
theorem angle_eq (raw : Nat) (h : raw < 16384) :
    f32Mul (f32OfNat raw) RAD_PER_LSB = f32Round ((raw : ℚ) * (13176795 / 34359738368)) := by
  unfold f32Mul
  rw [f32OfNat_eq raw (by omega), RAD_PER_LSB_eq]

theorem angle_nonneg (raw : Nat) (h : raw < 16384) :
    0 ≤ f32Mul (f32OfNat raw) RAD_PER_LSB := by
  rw [angle_eq raw h]
  exact f32Round_nonneg (by positivity)

/-- Distance between the computed angle and the exact product. -/
theorem angle_sub_le (raw : Nat) (h : raw < 16384) :
    |f32Mul (f32OfNat raw) RAD_PER_LSB - (raw : ℚ) * (13176795 / 34359738368)| ≤
      1 / 4194304 := by
  have hr : (raw : ℚ) ≤ 16383 := by exact_mod_cast Nat.le_of_lt_succ h
  have h0 : (0 : ℚ) ≤ (raw : ℚ) * (13176795 / 34359738368) := by positivity
  have h8 : (raw : ℚ) * (13176795 / 34359738368) < 8 := by linarith
  have h1 := f32Round_sub_le ((raw : ℚ) * (13176795 / 34359738368))
  have h2 := f32Ulp_le_of_lt_eight h0 h8
  rw [angle_eq raw h]
  linarith

theorem angle_le (raw : Nat) (h : raw < 16384) :
    f32Mul (f32OfNat raw) RAD_PER_LSB ≤ 6283 / 1000 := by
  have hr : (raw : ℚ) ≤ 16383 := by exact_mod_cast Nat.le_of_lt_succ h
  have h1 := (abs_le.1 (angle_sub_le raw h)).2
  linarith

/-- The computed angle is within `2^-21` of the real number
`raw * (2π / 16384)`. -/
theorem angle_close (raw : Nat) (h : raw < 16384) :
    |((f32Mul (f32OfNat raw) RAD_PER_LSB : ℚ) : ℝ) - (raw : ℝ) * (2 * Real.pi / 16384)| <
      1 / 2097152 := by
  have hr : (raw : ℝ) ≤ 16383 := by exact_mod_cast Nat.le_of_lt_succ h
  have hr0 : (0 : ℝ) ≤ (raw : ℝ) := Nat.cast_nonneg raw
  have h1 : |((f32Mul (f32OfNat raw) RAD_PER_LSB : ℚ) : ℝ) -
      (raw : ℝ) * (13176795 / 34359738368)| ≤ 1 / 4194304 := by
    have := angle_sub_le raw h
    have h' : (((|f32Mul (f32OfNat raw) RAD_PER_LSB - (raw : ℚ) * (13176795 / 34359738368)| : ℚ)) : ℝ)
        ≤ ((1 / 4194304 : ℚ) : ℝ) := Rat.cast_le.2 this
    push_cast at h'
    exact h'
  have hlo := Real.pi_gt_d20
  have hhi := Real.pi_lt_d20
  obtain ⟨h1a, h1b⟩ := abs_le.1 h1
  rw [abs_lt]
  constructor <;> nlinarith

theorem angle_raw_0 : f32Mul (f32OfNat 0) RAD_PER_LSB = 0 := by
  rw [angle_eq 0 (by decide)]
  simp [f32Round_zero]

theorem angle_raw_8192 : f32Mul (f32OfNat 8192) RAD_PER_LSB = 13176795 / 4194304 := by
  rw [angle_eq 8192 (by decide)]
  have := f32Round_dyadic 13176795 (-22) (by norm_num) (by norm_num)
  norm_num at this ⊢
  exact this

theorem angle_raw_16383 : f32Mul (f32OfNat 16383) RAD_PER_LSB = 13175991 / 2097152 := by
  rw [angle_eq 16383 (by decide)]
  rw [f32Round_eq 2 13175991 (by norm_num) (by rw [abs_of_pos] <;> norm_num)
    (by rw [abs_of_pos] <;> norm_num) (by rw [abs_lt]; constructor <;> norm_num)]
  norm_num

/-- The single-precision difference `2π - 2π/16384`. -/
theorem f32Sub_TWO_PI_F_RAD_PER_LSB : f32Sub TWO_PI_F RAD_PER_LSB = 13175991 / 2097152 := by
  have e : TWO_PI_F - RAD_PER_LSB = ((16383 : ℕ) : ℚ) * (13176795 / 34359738368) := by
    rw [TWO_PI_F_eq, RAD_PER_LSB_eq]
    norm_num
  unfold f32Sub
  rw [e, ← angle_eq 16383 (by decide), angle_raw_16383]

/-! ## Machine integers and frame layout -/

theorem u8_lt (n : Nat) : u8 n < 256 := Nat.mod_lt _ (by decide)

theorem frame24_eq (b0 b1 b2 : Nat) :
    frame24 b0 b1 b2 = u8 b0 * 65536 + u8 b1 * 256 + u8 b2 := by
  have h2 : u8 b2 < 2 ^ 8 := u8_lt b2
  have h1 : 2 ^ 8 * u8 b1 + u8 b2 < 2 ^ 16 := by
    have := u8_lt b1
    omega
  unfold frame24
  rw [Nat.lor_assoc, Nat.shiftLeft_eq, Nat.shiftLeft_eq, Nat.mul_comm (u8 b1),
    ← Nat.mul_add_lt_is_or h2, Nat.mul_comm (u8 b0), ← Nat.mul_add_lt_is_or h1]
  omega

theorem frame24_lt (b0 b1 b2 : Nat) : frame24 b0 b1 b2 < 16777216 := by
  have h0 := u8_lt b0
  have h1 := u8_lt b1
  have h2 := u8_lt b2
  rw [frame24_eq]
  omega

theorem and_0x3F (x : Nat) : x &&& 0x3F = x % 64 := Nat.and_pow_two_sub_one_eq_mod x 6

theorem and_0x0F (x : Nat) : x &&& 0x0F = x % 16 := Nat.and_pow_two_sub_one_eq_mod x 4

theorem and_0x3FFF (x : Nat) : x &&& 0x3FFF = x % 16384 :=
  Nat.and_pow_two_sub_one_eq_mod x 14

theorem and_PAYLOAD_MASK (x : Nat) : x &&& PAYLOAD_MASK = x % 262144 :=
  Nat.and_pow_two_sub_one_eq_mod x 18

theorem and_FRAME_MASK (x : Nat) : x &&& FRAME_MASK = x % 16777216 :=
  Nat.and_pow_two_sub_one_eq_mod x 24

theorem shr6 (x : Nat) : x >>> 6 = x / 64 := Nat.shiftRight_eq_div_pow x 6

theorem shr10 (x : Nat) : x >>> 10 = x / 1024 := Nat.shiftRight_eq_div_pow x 10

theorem rxFrame_deliver (b0 b1 b2 : Nat) (s : State) :
    rxFrame (deliver b0 b1 b2 s) = frame24 b0 b1 b2 := by
  have h := frame24_lt b0 b1 b2
  have e : ∀ n, u8 (u8 n) = u8 n := fun n => Nat.mod_mod _ _
  simp only [rxFrame, deliver, e, and_FRAME_MASK]
  exact Nat.mod_eq_of_lt h

theorem rxFrame_csWrite (l : Bool) (s : State) : rxFrame (csWrite l s) = rxFrame s := rfl

/-- The checksum test of `DecodeFrame` on a frame below `2^24`, in arithmetic. -/
theorem DecodeFrame_fst (crc6 : Nat → Nat → Nat) (f : Nat) (a : F32) (hf : f < 16777216) :
    (DecodeFrame crc6 f a).1 = decide (f % 64 = u8 (crc6 (f / 64) 18)) := by
  have h1 : u8 (f % 64) = f % 64 := Nat.mod_eq_of_lt (by omega)
  have h2 : f / 64 % 262144 = f / 64 := Nat.mod_eq_of_lt (by omega)
  unfold DecodeFrame
  simp only [and_0x3F, shr6, and_PAYLOAD_MASK, h1, h2]
  by_cases h : f % 64 = u8 (crc6 (f / 64) 18) <;> simp [h]

/-- The angle produced by `DecodeFrame` on an accepted frame. -/
theorem DecodeFrame_snd_of_accept (crc6 : Nat → Nat → Nat) (f : Nat) (a : F32)
    (h : (DecodeFrame crc6 f a).1 = true) :
    (DecodeFrame crc6 f a).2 = f32Mul (f32OfNat (f / 1024 % 16384)) RAD_PER_LSB := by
  have h1 : u16 (f / 1024 % 16384) = f / 1024 % 16384 := by
    unfold u16
    omega
  unfold DecodeFrame at h ⊢
  simp only [shr10, and_0x3FFF, h1] at h ⊢
  split at h
  · simp at h
  · simp_all

theorem DecodeFrame_snd (crc6 : Nat → Nat → Nat) (f : Nat) (a : F32) (hf : f < 16777216)
    (h : (DecodeFrame crc6 f a).1 = true) :
    (DecodeFrame crc6 f a).2 = f32Mul (f32OfNat (f / 1024)) RAD_PER_LSB := by
  have h1 : f / 1024 % 16384 = f / 1024 := Nat.mod_eq_of_lt (by omega)
  rw [DecodeFrame_snd_of_accept crc6 f a h, h1]

/-! ## Reading the cache between writes -/

theorem LoadCache_empty (fuel : Nat) (s : State) (c : CacheData)
    (hv : s.cache_valid = false) : LoadCache fuel s c = some (ErrorCode.EMPTY, c) := by
  simp [LoadCache, hv]

theorem LoadCache_ok (fuel : Nat) (s : State) (c : CacheData)
    (hv : s.cache_valid = true) (he : s.cache_seq % 2 = 0) :
    LoadCache (fuel + 1) s c = some (ErrorCode.OK, s.cache_data) := by
  simp [LoadCache, LoadCache.loop, LoadCache.body, hv, Nat.and_one_is_mod, he]

theorem ReadAngleRad_ok (fuel : Nat) (s : State)
    (hv : s.cache_valid = true) (he : s.cache_seq % 2 = 0) :
    ReadAngleRad (fuel + 1) s = some s.cache_data.angle_rad := by
  simp [ReadAngleRad, LoadCache_ok fuel s _ hv he]

theorem ReadAngleRad_empty (fuel : Nat) (s : State) (hv : s.cache_valid = false) :
    ReadAngleRad fuel s = some 0 := by
  simp [ReadAngleRad, LoadCache_empty fuel s _ hv, DEFAULT_ANGLE_RAD_eq]

theorem ReadRawMg_ok (fuel : Nat) (s : State)
    (hv : s.cache_valid = true) (he : s.cache_seq % 2 = 0) :
    ReadRawMg (fuel + 1) s = some s.cache_data.raw_mg := by
  simp [ReadRawMg, LoadCache_ok fuel s _ hv he]

theorem ReadRawMg_empty (fuel : Nat) (s : State) (hv : s.cache_valid = false) :
    ReadRawMg fuel s = some 0 := by
  simp [ReadRawMg, LoadCache_empty fuel s _ hv]

/-- Two increments of the 32-bit counter keep it even. -/
theorem u32_add_two_even (n : Nat) (h : n % 2 = 0) : u32 (u32 (n + 1) + 1) % 2 = 0 := by
  unfold u32
  omega

/-! ## The transfer controller leaves the sample cache alone -/

theorem TryStartTransfer_cache (in_isr : Bool) (bus : ErrorCode) (s : State) :
    (TryStartTransfer in_isr bus s).cache_data = s.cache_data ∧
    (TryStartTransfer in_isr bus s).cache_seq = s.cache_seq ∧
    (TryStartTransfer in_isr bus s).cache_valid = s.cache_valid := by
  cases in_isr <;> by_cases hb : bus = ErrorCode.OK <;> cases hr : s.running <;>
    cases hp : s.transfer_pending <;>
    simp [TryStartTransfer, csWrite, busReadAndWrite, assertFail, hb, hr, hp]

theorem Start_cache (bus : ErrorCode) (s : State) :
    (Start bus s).cache_data = s.cache_data ∧
    (Start bus s).cache_seq = s.cache_seq ∧
    (Start bus s).cache_valid = s.cache_valid := by
  simp only [Start]
  split_ifs
  · exact TryStartTransfer_cache _ _ _
  · exact ⟨rfl, rfl, rfl⟩

/-- Effect of a successful-status completion on the cache when the frame is
rejected by `DecodeFrame`. -/
theorem OnTransferDone_cache_of_reject (crc6 : Nat → Nat → Nat) (in_isr : Bool)
    (bus : ErrorCode) (s : State)
    (h : (DecodeFrame crc6 (rxFrame s) DEFAULT_ANGLE_RAD).1 = false) :
    (OnTransferDone crc6 in_isr ErrorCode.OK bus s).cache_data = s.cache_data ∧
    (OnTransferDone crc6 in_isr ErrorCode.OK bus s).cache_seq = s.cache_seq ∧
    (OnTransferDone crc6 in_isr ErrorCode.OK bus s).cache_valid = s.cache_valid := by
  simp only [OnTransferDone, ne_eq, not_true_eq_false, if_false, rxFrame_csWrite, h,
    Bool.false_eq_true]
  split_ifs
  · refine ⟨?_, ?_, ?_⟩
    · rw [(TryStartTransfer_cache _ _ _).1]; rfl
    · rw [(TryStartTransfer_cache _ _ _).2.1]; rfl
    · rw [(TryStartTransfer_cache _ _ _).2.2]; rfl
  · exact ⟨rfl, rfl, rfl⟩

/-- Effect of a successful-status completion on the cache when the frame is
accepted by `DecodeFrame`. -/
theorem OnTransferDone_cache_of_accept (crc6 : Nat → Nat → Nat) (in_isr : Bool)
    (bus : ErrorCode) (s : State)
    (h : (DecodeFrame crc6 (rxFrame s) DEFAULT_ANGLE_RAD).1 = true) :
    (OnTransferDone crc6 in_isr ErrorCode.OK bus s).cache_data =
      { angle_rad := (DecodeFrame crc6 (rxFrame s) DEFAULT_ANGLE_RAD).2,
        raw_mg := rxFrame s / 64 % 16 } ∧
    (OnTransferDone crc6 in_isr ErrorCode.OK bus s).cache_seq =
      u32 (u32 (s.cache_seq + 1) + 1) ∧
    (OnTransferDone crc6 in_isr ErrorCode.OK bus s).cache_valid = true := by
  have hm : u8 (u8 (rxFrame s / 64 % 16) % 16) = rxFrame s / 64 % 16 := by
    unfold u8
    omega
  simp only [OnTransferDone, ne_eq, not_true_eq_false, if_false, rxFrame_csWrite, h, if_true]
  split_ifs
  · refine ⟨?_, ?_, ?_⟩
    · rw [(TryStartTransfer_cache _ _ _).1]
      simp [StoreSample, csWrite, shr6, and_0x0F, hm]
    · rw [(TryStartTransfer_cache _ _ _).2.1]; rfl
    · rw [(TryStartTransfer_cache _ _ _).2.2]; rfl
  · refine ⟨?_, rfl, rfl⟩
    simp [StoreSample, csWrite, shr6, and_0x0F, hm]

theorem OnTransferDone_cache_of_error (crc6 : Nat → Nat → Nat) (in_isr : Bool)
    (err bus : ErrorCode) (s : State) (h : err ≠ ErrorCode.OK) :
    (OnTransferDone crc6 in_isr err bus s).cache_data = s.cache_data ∧
    (OnTransferDone crc6 in_isr err bus s).cache_seq = s.cache_seq ∧
    (OnTransferDone crc6 in_isr err bus s).cache_valid = s.cache_valid := by
  simp [OnTransferDone, h, csWrite, assertFail]

theorem complete_cache_of_accept (crc6 : Nat → Nat → Nat) (in_isr : Bool)
    (b0 b1 b2 : Nat) (bus : ErrorCode) (s : State)
    (hc : frame24 b0 b1 b2 % 64 = u8 (crc6 (frame24 b0 b1 b2 / 64) 18)) :
    (complete crc6 in_isr ErrorCode.OK b0 b1 b2 bus s).cache_data =
      { angle_rad := f32Mul (f32OfNat (frame24 b0 b1 b2 / 1024)) RAD_PER_LSB,
        raw_mg := frame24 b0 b1 b2 / 64 % 16 } ∧
    (complete crc6 in_isr ErrorCode.OK b0 b1 b2 bus s).cache_seq =
      u32 (u32 (s.cache_seq + 1) + 1) ∧
    (complete crc6 in_isr ErrorCode.OK b0 b1 b2 bus s).cache_valid = true := by
  have hd : (DecodeFrame crc6 (rxFrame (deliver b0 b1 b2 s)) DEFAULT_ANGLE_RAD).1 = true := by
    rw [rxFrame_deliver, DecodeFrame_fst _ _ _ (frame24_lt b0 b1 b2)]
    simp [hc]
  obtain ⟨h1, h2, h3⟩ := OnTransferDone_cache_of_accept crc6 in_isr bus _ hd
  unfold complete
  refine ⟨?_, ?_, h3⟩
  · rw [h1, DecodeFrame_snd crc6 _ _ (by rw [rxFrame_deliver]; exact frame24_lt b0 b1 b2) hd,
      rxFrame_deliver]
  · rw [h2]
    rfl

theorem complete_cache_of_reject (crc6 : Nat → Nat → Nat) (in_isr : Bool)
    (b0 b1 b2 : Nat) (bus : ErrorCode) (s : State)
    (hc : frame24 b0 b1 b2 % 64 ≠ u8 (crc6 (frame24 b0 b1 b2 / 64) 18)) :
    (complete crc6 in_isr ErrorCode.OK b0 b1 b2 bus s).cache_data = s.cache_data ∧
    (complete crc6 in_isr ErrorCode.OK b0 b1 b2 bus s).cache_seq = s.cache_seq ∧
    (complete crc6 in_isr ErrorCode.OK b0 b1 b2 bus s).cache_valid = s.cache_valid := by
  have hd : (DecodeFrame crc6 (rxFrame (deliver b0 b1 b2 s)) DEFAULT_ANGLE_RAD).1 = false := by
    rw [rxFrame_deliver, DecodeFrame_fst _ _ _ (frame24_lt b0 b1 b2)]
    simp [hc]
  obtain ⟨h1, h2, h3⟩ := OnTransferDone_cache_of_reject crc6 in_isr bus _ hd
  unfold complete
  rw [h1, h2, h3]
  exact ⟨rfl, rfl, rfl⟩

theorem complete_cache_of_error (crc6 : Nat → Nat → Nat) (in_isr : Bool) (err : ErrorCode)
    (b0 b1 b2 : Nat) (bus : ErrorCode) (s : State) (he : err ≠ ErrorCode.OK) :
    (complete crc6 in_isr err b0 b1 b2 bus s).cache_data = s.cache_data ∧
    (complete crc6 in_isr err b0 b1 b2 bus s).cache_seq = s.cache_seq ∧
    (complete crc6 in_isr err b0 b1 b2 bus s).cache_valid = s.cache_valid := by
  obtain ⟨h1, h2, h3⟩ := OnTransferDone_cache_of_error crc6 in_isr err bus (deliver b0 b1 b2 s) he
  unfold complete
  rw [h1, h2, h3]
  exact ⟨rfl, rfl, rfl⟩

/-- What a completion does to the cache: nothing, or, when the status is OK
and the frame passes the check, the publication of the decoded sample. -/
theorem complete_cache (crc6 : Nat → Nat → Nat) (in_isr : Bool) (err : ErrorCode)
    (b0 b1 b2 : Nat) (bus : ErrorCode) (s : State) :
    ((complete crc6 in_isr err b0 b1 b2 bus s).cache_data = s.cache_data ∧
      (complete crc6 in_isr err b0 b1 b2 bus s).cache_seq = s.cache_seq ∧
      (complete crc6 in_isr err b0 b1 b2 bus s).cache_valid = s.cache_valid) ∨
    (err = ErrorCode.OK ∧
      frame24 b0 b1 b2 % 64 = u8 (crc6 (frame24 b0 b1 b2 / 64) 18) ∧
      (complete crc6 in_isr err b0 b1 b2 bus s).cache_data =
        { angle_rad := f32Mul (f32OfNat (frame24 b0 b1 b2 / 1024)) RAD_PER_LSB,
          raw_mg := frame24 b0 b1 b2 / 64 % 16 } ∧
      (complete crc6 in_isr err b0 b1 b2 bus s).cache_seq =
        u32 (u32 (s.cache_seq + 1) + 1) ∧
      (complete crc6 in_isr err b0 b1 b2 bus s).cache_valid = true) := by
  by_cases he : err = ErrorCode.OK
  · subst he
    by_cases hc : frame24 b0 b1 b2 % 64 = u8 (crc6 (frame24 b0 b1 b2 / 64) 18)
    · exact Or.inr ⟨rfl, hc, complete_cache_of_accept crc6 in_isr b0 b1 b2 bus s hc⟩
    · exact Or.inl (complete_cache_of_reject crc6 in_isr b0 b1 b2 bus s hc)
  · exact Or.inl (complete_cache_of_error crc6 in_isr err b0 b1 b2 bus s he)

/-- Between operations the generation counter is even and the cached sample
is an angle in `[0, 6.283]` with a 4-bit diagnostic field. -/
theorem Reachable_cache (crc6 : Nat → Nat → Nat) {s : State} (h : Reachable crc6 s) :
    s.cache_seq % 2 = 0 ∧ 0 ≤ s.cache_data.angle_rad ∧
    s.cache_data.angle_rad ≤ 6283 / 1000 ∧ s.cache_data.raw_mg < 16 := by
  induction h with
  | construct bus =>
    obtain ⟨h1, h2, _⟩ := Start_cache bus (csWrite true {})
    unfold construct
    rw [h1, h2]
    simp only [csWrite, DEFAULT_ANGLE_RAD_eq]
    norm_num
  | start bus _ ih =>
    obtain ⟨h1, h2, _⟩ := Start_cache bus ‹State›
    rw [h1, h2]
    exact ih
  | stop _ ih => exact ih
  | complete in_isr err b0 b1 b2 bus _ _ ih =>
    rcases complete_cache crc6 in_isr err b0 b1 b2 bus ‹State› with ⟨h1, h2, _⟩ | ⟨_, _, h1, h2, _⟩
    · rw [h1, h2]
      exact ih
    · have hlt : frame24 b0 b1 b2 / 1024 < 16384 := by
        have := frame24_lt b0 b1 b2
        omega
      rw [h1, h2]
      exact ⟨u32_add_two_even _ ih.1, angle_nonneg _ hlt, angle_le _ hlt, Nat.mod_lt _ (by decide)⟩

/-! ## At most one transfer in flight -/

/-- The compare-and-swap of `TryStartTransfer` fails while a transfer is
pending: the call returns at once. -/
theorem TryStartTransfer_of_pending (in_isr : Bool) (bus : ErrorCode) (s : State)
    (h : s.transfer_pending = true) : TryStartTransfer in_isr bus s = s := by
  simp [TryStartTransfer, h]

/-- An arm attempt that reaches the bus and is accepted. -/
theorem TryStartTransfer_of_accept (in_isr : Bool) (s : State)
    (hr : s.running = true) (hp : s.transfer_pending = false) :
    TryStartTransfer in_isr ErrorCode.OK s =
      { s with
        transfer_pending := true
        cs_level := false
        outstanding := s.outstanding + 1
        trace := s.trace ++
          [Effect.CsWrite false,
           Effect.ReadAndWrite s.rx_buf.size s.tx_buf.size s.tx_buf.bytes in_isr] } := by
  cases in_isr <;> simp [TryStartTransfer, csWrite, busReadAndWrite, hr, hp]

theorem TryStartTransfer_transfer_inv (in_isr : Bool) (bus : ErrorCode) (s : State)
    (h : s.outstanding ≤ 1 ∧ (s.transfer_pending = true ↔ s.outstanding = 1)) :
    (TryStartTransfer in_isr bus s).outstanding ≤ 1 ∧
    ((TryStartTransfer in_isr bus s).transfer_pending = true ↔
      (TryStartTransfer in_isr bus s).outstanding = 1) := by
  obtain ⟨h1, h2⟩ := h
  cases hp : s.transfer_pending
  · have h0 : s.outstanding = 0 := by
      rw [hp] at h2
      simp at h2
      omega
    cases in_isr <;> by_cases hb : bus = ErrorCode.OK <;> cases hr : s.running <;>
      simp [TryStartTransfer, csWrite, busReadAndWrite, assertFail, hb, hr, hp, h0]
  · rw [TryStartTransfer_of_pending in_isr bus s hp]
    exact ⟨h1, h2⟩

theorem Start_transfer_inv (bus : ErrorCode) (s : State)
    (h : s.outstanding ≤ 1 ∧ (s.transfer_pending = true ↔ s.outstanding = 1)) :
    (Start bus s).outstanding ≤ 1 ∧
    ((Start bus s).transfer_pending = true ↔ (Start bus s).outstanding = 1) := by
  simp only [Start]
  split_ifs
  · exact TryStartTransfer_transfer_inv _ _ _ h
  · exact h

/-- The completion handler, entered with no request outstanding on the bus,
leaves the pending flag in step with the bus. -/
theorem OnTransferDone_transfer_inv (crc6 : Nat → Nat → Nat) (in_isr : Bool)
    (err bus : ErrorCode) (s : State) (h : s.outstanding = 0) :
    (OnTransferDone crc6 in_isr err bus s).outstanding ≤ 1 ∧
    ((OnTransferDone crc6 in_isr err bus s).transfer_pending = true ↔
      (OnTransferDone crc6 in_isr err bus s).outstanding = 1) := by
  by_cases he : err = ErrorCode.OK
  · subst he
    simp only [OnTransferDone, ne_eq, not_true_eq_false, if_false]
    split_ifs
    · apply TryStartTransfer_transfer_inv
      simp [StoreSample, csWrite, h]
    · simp [StoreSample, csWrite, h]
    · apply TryStartTransfer_transfer_inv
      simp [csWrite, h]
    · simp [csWrite, h]
  · simp [OnTransferDone, he, csWrite, assertFail, h]

/-- In every reachable state at most one accepted bus request awaits its
completion, and the pending flag is set exactly when one does. -/
theorem Reachable_transfer (crc6 : Nat → Nat → Nat) {s : State} (h : Reachable crc6 s) :
    s.outstanding ≤ 1 ∧ (s.transfer_pending = true ↔ s.outstanding = 1) := by
  induction h with
  | construct bus =>
    unfold construct
    apply Start_transfer_inv
    simp [csWrite]
  | start bus _ ih => exact Start_transfer_inv bus _ ih
  | stop _ ih => exact ih
  | complete in_isr err b0 b1 b2 bus _ hpos ih =>
    unfold complete
    apply OnTransferDone_transfer_inv
    simp only [deliver]
    omega

/-! ## Arming and completion, case by case -/

/-- An arm attempt on a stopped pipeline returns at once. -/
theorem TryStartTransfer_of_not_running (in_isr : Bool) (bus : ErrorCode) (s : State)
    (h : s.running = false) : TryStartTransfer in_isr bus s = s := by
  simp [TryStartTransfer, h]

/-- An arm attempt that reaches the bus and is rejected. -/
theorem TryStartTransfer_of_reject (in_isr : Bool) (bus : ErrorCode) (s : State)
    (hr : s.running = true) (hp : s.transfer_pending = false) (hb : bus ≠ ErrorCode.OK) :
    TryStartTransfer in_isr bus s =
      { s with
        running := false
        transfer_pending := false
        cs_level := true
        trace := s.trace ++
          ([Effect.CsWrite false,
            Effect.ReadAndWrite s.rx_buf.size s.tx_buf.size s.tx_buf.bytes in_isr,
            Effect.CsWrite true, Effect.Fault in_isr] ++
           if in_isr then [Effect.Fault in_isr] else []) } := by
  cases in_isr <;>
    simp [TryStartTransfer, csWrite, busReadAndWrite, assertFail, hr, hp, hb]

/-- Arming does not look at the cache: it commutes with a publication. -/
theorem TryStartTransfer_StoreSample (in_isr : Bool) (bus : ErrorCode) (a : F32) (d : Nat)
    (s : State) :
    TryStartTransfer in_isr bus (StoreSample a d s) =
      StoreSample a d (TryStartTransfer in_isr bus s) := by
  cases in_isr <;> by_cases hb : bus = ErrorCode.OK <;> cases hr : s.running <;>
    cases hp : s.transfer_pending <;>
    simp [TryStartTransfer, StoreSample, csWrite, busReadAndWrite, assertFail, hb, hr, hp]

/-- The completion handler on a failure status. -/
theorem OnTransferDone_of_error (crc6 : Nat → Nat → Nat) (in_isr : Bool)
    (err bus : ErrorCode) (s : State) (he : err ≠ ErrorCode.OK) :
    OnTransferDone crc6 in_isr err bus s =
      { s with
        running := false
        transfer_pending := false
        cs_level := true
        trace := s.trace ++ [Effect.CsWrite true, Effect.Fault in_isr] } := by
  simp [OnTransferDone, he, csWrite, assertFail]

/-- The completion handler on status OK: select line high, pending flag
cleared, an arm attempt, and the publication of the sample if the frame passes
the check. -/
theorem OnTransferDone_of_ok (crc6 : Nat → Nat → Nat) (in_isr : Bool)
    (bus : ErrorCode) (s : State) :
    OnTransferDone crc6 in_isr ErrorCode.OK bus s =
      if (DecodeFrame crc6 (rxFrame s) DEFAULT_ANGLE_RAD).1 then
        StoreSample (DecodeFrame crc6 (rxFrame s) DEFAULT_ANGLE_RAD).2
          (u8 ((rxFrame s >>> 6) &&& 0x0F))
          (TryStartTransfer in_isr bus
            { s with
              transfer_pending := false
              cs_level := true
              trace := s.trace ++ [Effect.CsWrite true] })
      else
        TryStartTransfer in_isr bus
          { s with
            transfer_pending := false
            cs_level := true
            trace := s.trace ++ [Effect.CsWrite true] } := by
  simp only [OnTransferDone, ne_eq, not_true_eq_false, if_false, rxFrame_csWrite]
  cases hd : (DecodeFrame crc6 (rxFrame s) DEFAULT_ANGLE_RAD).1
  · simp only [Bool.false_eq_true, if_false]
    cases hr : s.running
    · simp [csWrite, hr, TryStartTransfer]
    · simp [csWrite, hr]
  · simp only [if_true]
    rw [← TryStartTransfer_StoreSample]
    cases hr : s.running
    · simp [csWrite, StoreSample, hr, TryStartTransfer]
    · simp [csWrite, StoreSample, hr]

/-- The transfer-control part of a state: the two flags, the select level,
the outstanding requests and the log of calls are what `StoreSample` keeps. -/
theorem StoreSample_control (a : F32) (d : Nat) (s : State) :
    (StoreSample a d s).running = s.running ∧
    (StoreSample a d s).transfer_pending = s.transfer_pending ∧
    (StoreSample a d s).cs_level = s.cs_level ∧
    (StoreSample a d s).outstanding = s.outstanding ∧
    (StoreSample a d s).trace = s.trace :=
  ⟨rfl, rfl, rfl, rfl, rfl⟩

/-- The transfer-control part of the state after a completion with status OK
is that of the arm attempt alone, whatever the frame. -/
theorem OnTransferDone_ok_control (crc6 : Nat → Nat → Nat) (in_isr : Bool)
    (bus : ErrorCode) (s : State) :
    (OnTransferDone crc6 in_isr ErrorCode.OK bus s).running =
      (TryStartTransfer in_isr bus { s with
        transfer_pending := false
        cs_level := true
        trace := s.trace ++ [Effect.CsWrite true] }).running ∧
    (OnTransferDone crc6 in_isr ErrorCode.OK bus s).transfer_pending =
      (TryStartTransfer in_isr bus { s with
        transfer_pending := false
        cs_level := true
        trace := s.trace ++ [Effect.CsWrite true] }).transfer_pending ∧
    (OnTransferDone crc6 in_isr ErrorCode.OK bus s).cs_level =
      (TryStartTransfer in_isr bus { s with
        transfer_pending := false
        cs_level := true
        trace := s.trace ++ [Effect.CsWrite true] }).cs_level ∧
    (OnTransferDone crc6 in_isr ErrorCode.OK bus s).outstanding =
      (TryStartTransfer in_isr bus { s with
        transfer_pending := false
        cs_level := true
        trace := s.trace ++ [Effect.CsWrite true] }).outstanding ∧
    (OnTransferDone crc6 in_isr ErrorCode.OK bus s).trace =
      (TryStartTransfer in_isr bus { s with
        transfer_pending := false
        cs_level := true
        trace := s.trace ++ [Effect.CsWrite true] }).trace := by
  rw [OnTransferDone_of_ok]
  split_ifs
  · exact StoreSample_control _ _ _
  · exact ⟨rfl, rfl, rfl, rfl, rfl⟩

/-- The transfer-control part of the state after an arm attempt depends only
on the transfer-control part before it and on the transmit buffer. -/
theorem TryStartTransfer_control_congr (in_isr : Bool) (bus : ErrorCode) (s t : State)
    (h1 : s.running = t.running) (h2 : s.transfer_pending = t.transfer_pending)
    (h3 : s.cs_level = t.cs_level) (h4 : s.outstanding = t.outstanding)
    (h5 : s.trace = t.trace) (h6 : s.tx_buf = t.tx_buf) :
    (TryStartTransfer in_isr bus s).running = (TryStartTransfer in_isr bus t).running ∧
    (TryStartTransfer in_isr bus s).transfer_pending =
      (TryStartTransfer in_isr bus t).transfer_pending ∧
    (TryStartTransfer in_isr bus s).cs_level = (TryStartTransfer in_isr bus t).cs_level ∧
    (TryStartTransfer in_isr bus s).outstanding =
      (TryStartTransfer in_isr bus t).outstanding ∧
    (TryStartTransfer in_isr bus s).trace = (TryStartTransfer in_isr bus t).trace := by
  cases in_isr <;> by_cases hb : bus = ErrorCode.OK <;> cases hr : t.running <;>
    cases hp : t.transfer_pending <;>
    simp [TryStartTransfer, csWrite, busReadAndWrite, assertFail, Buf3.size,
      hb, hr, hp, h1, h2, h3, h4, h5, h6]

/-! ## The select line -/

theorem lastCsWrite_append (xs ys : List Effect) :
    lastCsWrite (xs ++ ys) =
      match lastCsWrite ys with
      | some level => some level
      | none => lastCsWrite xs := by
  induction xs with
  | nil =>
    cases h : lastCsWrite ys <;> simp [lastCsWrite, h]
  | cons x xs ih =>
    cases h : lastCsWrite ys <;> simp only [h] at ih ⊢ <;>
      simp only [List.cons_append, lastCsWrite, List.append_eq, ih]

theorem TryStartTransfer_select_inv (in_isr : Bool) (bus : ErrorCode) (s : State)
    (h : s.cs_level = !s.transfer_pending ∧ lastCsWrite s.trace = some s.cs_level) :
    (TryStartTransfer in_isr bus s).cs_level = !(TryStartTransfer in_isr bus s).transfer_pending ∧
    lastCsWrite (TryStartTransfer in_isr bus s).trace =
      some (TryStartTransfer in_isr bus s).cs_level := by
  obtain ⟨h1, h2⟩ := h
  cases hr : s.running
  · rw [TryStartTransfer_of_not_running in_isr bus s hr]
    exact ⟨h1, h2⟩
  · cases hp : s.transfer_pending
    · by_cases hb : bus = ErrorCode.OK
      · subst hb
        rw [TryStartTransfer_of_accept in_isr s hr hp]
        simp [lastCsWrite_append, lastCsWrite]
      · rw [TryStartTransfer_of_reject in_isr bus s hr hp hb]
        cases in_isr <;> simp [lastCsWrite_append, lastCsWrite]
    · rw [TryStartTransfer_of_pending in_isr bus s hp]
      exact ⟨h1, h2⟩

theorem Start_select_inv (bus : ErrorCode) (s : State)
    (h : s.cs_level = !s.transfer_pending ∧ lastCsWrite s.trace = some s.cs_level) :
    (Start bus s).cs_level = !(Start bus s).transfer_pending ∧
    lastCsWrite (Start bus s).trace = some (Start bus s).cs_level := by
  simp only [Start]
  split_ifs
  · exact TryStartTransfer_select_inv _ _ _ h
  · exact h

/-- The completion handler writes the select line high before anything else,
so it restores the link between select level and pending flag from any state. -/
theorem OnTransferDone_select_inv (crc6 : Nat → Nat → Nat) (in_isr : Bool)
    (err bus : ErrorCode) (s : State) :
    (OnTransferDone crc6 in_isr err bus s).cs_level =
      !(OnTransferDone crc6 in_isr err bus s).transfer_pending ∧
    lastCsWrite (OnTransferDone crc6 in_isr err bus s).trace =
      some (OnTransferDone crc6 in_isr err bus s).cs_level := by
  by_cases he : err = ErrorCode.OK
  · subst he
    obtain ⟨_, h2, h3, _, h5⟩ := OnTransferDone_ok_control crc6 in_isr bus s
    rw [h2, h3, h5]
    apply TryStartTransfer_select_inv
    simp [lastCsWrite_append, lastCsWrite]
  · rw [OnTransferDone_of_error crc6 in_isr err bus s he]
    simp [lastCsWrite_append, lastCsWrite]

/-- In every reachable state the select line is low exactly while a transfer
is pending, and its level is the one of the last write in the call log. -/
theorem Reachable_select (crc6 : Nat → Nat → Nat) {s : State} (h : Reachable crc6 s) :
    s.cs_level = !s.transfer_pending ∧ lastCsWrite s.trace = some s.cs_level := by
  induction h with
  | construct bus =>
    unfold construct
    apply Start_select_inv
    simp [csWrite, lastCsWrite]
  | start bus _ ih => exact Start_select_inv bus _ ih
  | stop _ ih => exact ih
  | complete in_isr err b0 b1 b2 bus _ _ _ =>
    exact OnTransferDone_select_inv crc6 in_isr err bus _

/-! ## Invariants of the interleaved writer and reader -/

theorem Conc.run_nil (c : Conc) : c.run [] = c := rfl

theorem Conc.run_cons (c : Conc) (a : Action) (sched : List Action) :
    c.run (a :: sched) = (c.step a).run sched := rfl

theorem Conc.run_append (c : Conc) (xs ys : List Action) :
    c.run (xs ++ ys) = (c.run xs).run ys := by
  simp [Conc.run, List.foldl_append]

theorem Conc.WriterInv_step (c : Conc) (a : Action) (h : c.WriterInv) :
    (c.step a).WriterInv := by
  obtain ⟨mem, wpc, rpc, sb, cache, incs, pub, ret, g, e, rv⟩ := c
  obtain ⟨h1, h2, h3, h4⟩ := h
  simp only at h1 h2 h3 h4
  cases a with
  | writerCall a d =>
    cases wpc with
    | idle =>
      refine ⟨?_, h2, h3, ?_⟩
      · simp only [Conc.step, StoreSample.incSeq, u32, h1]
        omega
      · simp only [Conc.step]
        omega
    | afterInc1 _ _ => exact ⟨h1, h2, h3, h4⟩
    | afterAngle _ _ => exact ⟨h1, h2, h3, h4⟩
    | afterMg _ _ => exact ⟨h1, h2, h3, h4⟩
    | afterInc2 _ _ => exact ⟨h1, h2, h3, h4⟩
  | writerStep =>
    cases wpc with
    | idle => exact ⟨h1, h2, h3, h4⟩
    | afterInc1 a d => exact ⟨h1, h2, h3, h4, rfl⟩
    | afterAngle a d =>
      refine ⟨h1, h2, h3, h4.1, ?_⟩
      simp only [Conc.step, StoreSample.writeMg, h4.2]
    | afterMg a d =>
      refine ⟨?_, h2, ?_, ?_, ?_, ?_⟩
      · simp only [Conc.step, StoreSample.incSeq, u32, h1]
        omega
      · intro _
        simp [Conc.step]
      · simp only [Conc.step]
        omega
      · simp [Conc.step]
      · simp [Conc.step, StoreSample.incSeq, h4.2]
    | afterInc2 a d =>
      refine ⟨h1, ?_, fun _ => h4.2.1, h4.1, fun _ => h4.2.2⟩
      simp [Conc.step, StoreSample.setValid]
  | readerCall c0 =>
    cases rpc <;> exact ⟨h1, h2, h3, h4⟩
  | readerStep =>
    cases rpc with
    | loadValid =>
      simp only [Conc.step]
      split_ifs <;> exact ⟨h1, h2, h3, h4⟩
    | loadBegin =>
      simp only [Conc.step]
      split_ifs <;> exact ⟨h1, h2, h3, h4⟩
    | copyAngle => exact ⟨h1, h2, h3, h4⟩
    | copyMg => exact ⟨h1, h2, h3, h4⟩
    | loadEnd =>
      simp only [Conc.step]
      split_ifs <;> exact ⟨h1, h2, h3, h4⟩
    | done _ => exact ⟨h1, h2, h3, h4⟩

theorem Conc.ReaderInv_step (c : Conc) (a : Action) (hw : c.WriterInv) (hr : c.ReaderInv) :
    (c.step a).ReaderInv := by
  obtain ⟨mem, wpc, rpc, sb, cache, incs, pub, ret, g, e, rv⟩ := c
  obtain ⟨h1, h2, h3, h4⟩ := hw
  simp only at h1 h2 h3 h4
  cases a with
  | writerCall a d =>
    cases wpc with
    | idle =>
      cases rpc with
      | loadValid => trivial
      | loadBegin => exact hr
      | copyAngle =>
        obtain ⟨r1, r2, r3, r4⟩ := hr
        exact ⟨r1, Nat.le_succ_of_le r2, r3, r4⟩
      | copyMg =>
        obtain ⟨r1, r2, r3, r4, r5⟩ := hr
        have r2' : g ≤ incs := r2
        refine ⟨r1, Nat.le_succ_of_le r2, r3, r4, ?_⟩
        intro hh
        have hh' : incs + 1 = g := hh
        omega
      | loadEnd =>
        obtain ⟨r1, r2, r3, r4, r5⟩ := hr
        have r2' : g ≤ incs := r2
        refine ⟨r1, Nat.le_succ_of_le r2, r3, r4, ?_⟩
        intro hh
        have hh' : incs + 1 = g := hh
        omega
      | done err => cases err <;> exact hr
    | afterInc1 _ _ => exact hr
    | afterAngle _ _ => exact hr
    | afterMg _ _ => exact hr
    | afterInc2 _ _ => exact hr
  | writerStep =>
    cases wpc with
    | idle => exact hr
    | afterInc1 a d =>
      have hodd : incs % 2 = 1 := h4
      cases rpc with
      | loadValid => trivial
      | loadBegin => exact hr
      | copyAngle => exact hr
      | copyMg =>
        obtain ⟨r1, r2, r3, r4, r5⟩ := hr
        have r3' : g % 2 = 0 := r3
        refine ⟨r1, r2, r3, r4, ?_⟩
        intro hh
        have hh' : incs = g := hh
        omega
      | loadEnd =>
        obtain ⟨r1, r2, r3, r4, r5⟩ := hr
        have r3' : g % 2 = 0 := r3
        refine ⟨r1, r2, r3, r4, ?_⟩
        intro hh
        have hh' : incs = g := hh
        omega
      | done err => cases err <;> exact hr
    | afterAngle a d =>
      have hodd : incs % 2 = 1 := h4.1
      cases rpc with
      | loadValid => trivial
      | loadBegin => exact hr
      | copyAngle => exact hr
      | copyMg =>
        obtain ⟨r1, r2, r3, r4, r5⟩ := hr
        have r3' : g % 2 = 0 := r3
        refine ⟨r1, r2, r3, r4, ?_⟩
        intro hh
        have hh' : incs = g := hh
        omega
      | loadEnd =>
        obtain ⟨r1, r2, r3, r4, r5⟩ := hr
        have r3' : g % 2 = 0 := r3
        refine ⟨r1, r2, r3, r4, ?_⟩
        intro hh
        have hh' : incs = g := hh
        omega
      | done err => cases err <;> exact hr
    | afterMg a d =>
      have hne : pub ++ [({ angle_rad := a, raw_mg := u8 (d &&& 0x0F) } : CacheData)] ≠ [] := by
        simp
      cases rpc with
      | loadValid => trivial
      | loadBegin => exact hne
      | copyAngle =>
        obtain ⟨r1, r2, r3, r4⟩ := hr
        exact ⟨hne, Nat.le_succ_of_le r2, r3, r4⟩
      | copyMg =>
        obtain ⟨r1, r2, r3, r4, r5⟩ := hr
        have r2' : g ≤ incs := r2
        refine ⟨hne, Nat.le_succ_of_le r2, r3, r4, ?_⟩
        intro hh
        have hh' : incs + 1 = g := hh
        omega
      | loadEnd =>
        obtain ⟨r1, r2, r3, r4, r5⟩ := hr
        have r2' : g ≤ incs := r2
        refine ⟨hne, Nat.le_succ_of_le r2, r3, r4, ?_⟩
        intro hh
        have hh' : incs + 1 = g := hh
        omega
      | done err =>
        cases err with
        | OK =>
          intro hlt
          exact List.mem_append_left _ (hr hlt)
        | EMPTY => exact hr
        | OTHER _ => exact hr
    | afterInc2 a d =>
      cases rpc with
      | loadValid => trivial
      | loadBegin => exact hr
      | copyAngle => exact hr
      | copyMg => exact hr
      | loadEnd => exact hr
      | done err => cases err <;> exact hr
  | readerCall c0 =>
    cases rpc with
    | loadValid => trivial
    | loadBegin => exact hr
    | copyAngle => exact hr
    | copyMg => exact hr
    | loadEnd => exact hr
    | done err => trivial
  | readerStep =>
    cases rpc with
    | loadValid =>
      cases hv : mem.cache_valid
      · have hret : ret = 0 := h2.1 hv
        simp only [Conc.step, hv, Bool.not_false, if_true]
        exact hret
      · simp only [Conc.step, hv, Bool.not_true, Bool.false_eq_true, if_false]
        exact h3 hv
    | loadBegin =>
      have hpub : pub ≠ [] := hr
      by_cases hodd : mem.cache_seq % 2 = 0
      · have hg : incs % 2 = 0 := by
          rw [h1] at hodd
          omega
        simp only [Conc.step, Nat.and_one_is_mod, hodd, bne_self_eq_false,
          Bool.false_eq_true, if_false]
        exact ⟨hpub, le_rfl, hg, h1⟩
      · have h1' : mem.cache_seq % 2 = 1 := by omega
        simp only [Conc.step, Nat.and_one_is_mod, h1']
        exact hpub
    | copyAngle =>
      obtain ⟨r1, r2, r3, r4⟩ := hr
      exact ⟨r1, r2, r3, r4, fun _ => rfl⟩
    | copyMg =>
      obtain ⟨r1, r2, r3, r4, r5⟩ := hr
      refine ⟨r1, r2, r3, r4, ?_⟩
      intro hh
      have hh' : incs = g := hh
      have ha : cache.angle_rad = mem.cache_data.angle_rad := r5 hh'
      show ({ cache with raw_mg := mem.cache_data.raw_mg } : CacheData) = mem.cache_data
      rw [ha]
    | loadEnd =>
      obtain ⟨r1, r2, r3, r4, r5⟩ := hr
      have r1' : pub ≠ [] := r1
      have r2' : g ≤ incs := r2
      have r3' : g % 2 = 0 := r3
      have r4' : sb = g % 4294967296 := r4
      by_cases heq : sb = mem.cache_seq
      · simp only [Conc.step, heq, beq_self_eq_true, if_true]
        intro hlt
        have hlt' : incs < g + 4294967296 := hlt
        have hig : incs = g := by
          rw [h1, r4'] at heq
          omega
        have hc : cache = mem.cache_data := r5 hig
        have heven : incs % 2 = 0 := by omega
        show cache ∈ pub
        rw [hc]
        cases wpc with
        | idle => exact h4.2 r1'
        | afterInc1 _ _ =>
          have : incs % 2 = 1 := h4
          omega
        | afterAngle _ _ =>
          have : incs % 2 = 1 := h4.1
          omega
        | afterMg _ _ =>
          have : incs % 2 = 1 := h4.1
          omega
        | afterInc2 _ _ => exact h4.2.2
      · have hb : (sb == mem.cache_seq) = false := by simpa using heq
        simp only [Conc.step, hb, Bool.false_eq_true, if_false]
        exact r1'
    | done err => cases err <;> exact hr

/-- Both invariants hold after every schedule from the initial state: fresh
cache, writer idle, reader entering `LoadCache`. -/
theorem Conc.inv_run (sched : List Action) :
    (({} : Conc).run sched).WriterInv ∧ (({} : Conc).run sched).ReaderInv := by
  have gen : ∀ (sched : List Action) (c : Conc), c.WriterInv ∧ c.ReaderInv →
      (c.run sched).WriterInv ∧ (c.run sched).ReaderInv := by
    intro sched
    induction sched with
    | nil => intro c h; exact h
    | cons a sched ih =>
      intro c h
      rw [Conc.run_cons]
      exact ih _ ⟨Conc.WriterInv_step c a h.1, Conc.ReaderInv_step c a h.1 h.2⟩
  apply gen
  refine ⟨⟨rfl, ?_, ?_, ?_, ?_⟩, trivial⟩
  · exact ⟨fun _ => rfl, fun _ => rfl⟩
  · intro h
    cases h
  · rfl
  · intro h
    exact absurd rfl h

/-- The five steps of the writer, run without a break, are `StoreSample`. -/
theorem Conc.run_publishSteps (c : Conc) (a : F32) (d : Nat) (hw : c.wpc = WriterPc.idle) :
    c.run (publishSteps a d) =
      { c with
        mem := StoreSample a d c.mem
        incs := c.incs + 1 + 1
        published := c.published ++ [{ angle_rad := a, raw_mg := u8 (d &&& 0x0F) }]
        returned := c.returned + 1 } := by
  obtain ⟨mem, wpc, rpc, sb, cache, incs, pub, ret, g, e, rv⟩ := c
  simp only at hw
  subst hw
  rfl

/-- The reader, run without a break from the entry of `LoadCache`, returns
what the sequential `LoadCache` returns. -/
theorem Conc.run_reader_alone (c : Conc) (fuel : Nat) (err : ErrorCode) (out : CacheData)
    (hr : c.rpc = ReaderPc.loadValid)
    (h : LoadCache (fuel + 1) c.mem c.cache = some (err, out)) :
    ∃ n, (c.run (List.replicate n Action.readerStep)).rpc = ReaderPc.done err ∧
      (c.run (List.replicate n Action.readerStep)).cache = out ∧
      (c.run (List.replicate n Action.readerStep)).mem = c.mem := by
  obtain ⟨mem, wpc, rpc, sb, cache, incs, pub, ret, g, e, rv⟩ := c
  simp only at hr h
  subst hr
  cases hv : mem.cache_valid
  · rw [LoadCache_empty _ _ _ hv] at h
    simp only [Option.some.injEq, Prod.mk.injEq] at h
    refine ⟨1, ?_⟩
    simp [Conc.run, Conc.step, hv, h.1, h.2]
  · by_cases hodd : mem.cache_seq % 2 = 0
    · rw [LoadCache_ok _ _ _ hv hodd] at h
      simp only [Option.some.injEq, Prod.mk.injEq] at h
      refine ⟨5, ?_⟩
      simp [Conc.run, Conc.step, hv, Nat.and_one_is_mod, hodd, ← h.1, ← h.2]
    · have h1 : mem.cache_seq % 2 = 1 := by omega
      have hn : ∀ n, LoadCache.loop mem n = none := by
        intro n
        induction n with
        | zero => rfl
        | succ n ih => simp [LoadCache.loop, LoadCache.body, Nat.and_one_is_mod, h1, ih]
      simp [LoadCache, hv, hn] at h

/-- The effect of `n` uninterrupted `StoreSample(a, d)` calls. -/
theorem Conc.run_publishMany (a : F32) (d : Nat) (n : Nat) (c : Conc)
    (hw : c.wpc = WriterPc.idle) (hs : c.mem.cache_seq < 4294967296) :
    (c.run (publishMany a d n)).wpc = WriterPc.idle ∧
    (c.run (publishMany a d n)).rpc = c.rpc ∧
    (c.run (publishMany a d n)).SEQ_BEGIN = c.SEQ_BEGIN ∧
    (c.run (publishMany a d n)).cache = c.cache ∧
    (c.run (publishMany a d n)).mem.cache_seq = (c.mem.cache_seq + 2 * n) % 4294967296 ∧
    (0 < n → (c.run (publishMany a d n)).mem.cache_data =
      { angle_rad := a, raw_mg := u8 (d &&& 0x0F) }) ∧
    (c.run (publishMany a d n)).published =
      c.published ++ List.replicate n { angle_rad := a, raw_mg := u8 (d &&& 0x0F) } := by
  induction n generalizing c with
  | zero =>
    refine ⟨hw, rfl, rfl, rfl, ?_, ?_, ?_⟩
    · simp only [publishMany, Conc.run_nil]
      omega
    · intro h
      cases h
    · simp [publishMany, Conc.run_nil]
  | succ n ih =>
    have e := Conc.run_publishSteps c a d hw
    simp only [publishMany, Conc.run_append]
    rw [e]
    have hs' : (StoreSample a d c.mem).cache_seq < 4294967296 := Nat.mod_lt _ (by decide)
    obtain ⟨i1, i2, i3, i4, i5, i6, i7⟩ := ih
      { c with
        mem := StoreSample a d c.mem
        incs := c.incs + 1 + 1
        published := c.published ++ [{ angle_rad := a, raw_mg := u8 (d &&& 0x0F) }]
        returned := c.returned + 1 } hw hs'
    refine ⟨i1, i2, i3, i4, ?_, ?_, ?_⟩
    · rw [i5]
      have : (StoreSample a d c.mem).cache_seq = (c.mem.cache_seq + 2) % 4294967296 := by
        simp only [StoreSample, u32]
        omega
      simp only [this]
      omega
    · intro _
      rcases Nat.eq_zero_or_pos n with h0 | h0
      · subst h0
        simp [publishMany, Conc.run_nil, StoreSample]
      · exact i6 h0
    · rw [i7]
      simp [List.replicate_succ]

theorem Conc.step_copyMg (c : Conc) (h : c.rpc = ReaderPc.copyMg) :
    c.step Action.readerStep =
      { c with
        cache := { c.cache with raw_mg := c.mem.cache_data.raw_mg }
        rpc := ReaderPc.loadEnd } := by
  obtain ⟨mem, wpc, rpc, sb, cache, incs, pub, ret, g, e, rv⟩ := c
  simp only at h
  subst h
  rfl

theorem Conc.step_loadEnd_of_eq (c : Conc) (h : c.rpc = ReaderPc.loadEnd)
    (heq : c.SEQ_BEGIN = c.mem.cache_seq) :
    c.step Action.readerStep = { c with endIncs := c.incs, rpc := ReaderPc.done ErrorCode.OK } := by
  obtain ⟨mem, wpc, rpc, sb, cache, incs, pub, ret, g, e, rv⟩ := c
  simp only at h heq
  subst h
  simp [Conc.step, heq]

/-- A reader that has copied the angle of the sample (0.0, 1) before `n`
calls `StoreSample(a, 2)` and copies the diagnostic after them returns the
mixed pair (0.0, 2) whenever `2 n` increments bring the 32-bit counter back
to its value. -/
theorem Conc.torn_read_after_wrap (a : F32) (n : Nat) (hn : 0 < n)
    (hwrap : (2 + 2 * n) % 4294967296 = 2) (ha : a ≠ 0) :
    (({} : Conc).run
        (publishSteps 0 1 ++ [Action.readerStep, Action.readerStep, Action.readerStep] ++
          publishMany a 2 n ++
          [Action.readerStep, Action.readerStep])).rpc = ReaderPc.done ErrorCode.OK ∧
    (({} : Conc).run
        (publishSteps 0 1 ++ [Action.readerStep, Action.readerStep, Action.readerStep] ++
          publishMany a 2 n ++
          [Action.readerStep, Action.readerStep])).cache = { angle_rad := 0, raw_mg := 2 } ∧
    (({} : Conc).run
        (publishSteps 0 1 ++ [Action.readerStep, Action.readerStep, Action.readerStep] ++
          publishMany a 2 n ++
          [Action.readerStep, Action.readerStep])).published =
        { angle_rad := 0, raw_mg := 1 } :: List.replicate n { angle_rad := a, raw_mg := 2 } ∧
    ({ angle_rad := 0, raw_mg := 2 } : CacheData) ∉
      (({} : Conc).run
        (publishSteps 0 1 ++ [Action.readerStep, Action.readerStep, Action.readerStep] ++
          publishMany a 2 n ++
          [Action.readerStep, Action.readerStep])).published := by
  have hw : (({} : Conc).run (publishSteps 0 1 ++
      [Action.readerStep, Action.readerStep, Action.readerStep])).wpc = WriterPc.idle := by
    decide
  have hs : (({} : Conc).run (publishSteps 0 1 ++
      [Action.readerStep, Action.readerStep, Action.readerStep])).mem.cache_seq <
      4294967296 := by decide
  obtain ⟨_, i2, i3, i4, i5, i6, i7⟩ := Conc.run_publishMany a 2 n _ hw hs
  have j2 : (({} : Conc).run (publishSteps 0 1 ++
      [Action.readerStep, Action.readerStep, Action.readerStep])).rpc = ReaderPc.copyMg := by
    decide
  have j3 : (({} : Conc).run (publishSteps 0 1 ++
      [Action.readerStep, Action.readerStep, Action.readerStep])).SEQ_BEGIN = 2 := by decide
  have j4 : (({} : Conc).run (publishSteps 0 1 ++
      [Action.readerStep, Action.readerStep, Action.readerStep])).cache =
      { angle_rad := 0, raw_mg := 0 } := by decide
  have j5 : (({} : Conc).run (publishSteps 0 1 ++
      [Action.readerStep, Action.readerStep, Action.readerStep])).mem.cache_seq = 2 := by
    decide
  have j7 : (({} : Conc).run (publishSteps 0 1 ++
      [Action.readerStep, Action.readerStep, Action.readerStep])).published =
      [{ angle_rad := 0, raw_mg := 1 }] := by decide
  rw [j2] at i2
  rw [j3] at i3
  rw [j4] at i4
  rw [j5, hwrap] at i5
  rw [j7] at i7
  have i6' := i6 hn
  have hmg : u8 (2 &&& 0x0F) = 2 := by decide
  rw [hmg] at i6' i7
  have e1 := Conc.step_copyMg _ i2
  have e2 := Conc.step_loadEnd_of_eq
    (((({} : Conc).run (publishSteps 0 1 ++
        [Action.readerStep, Action.readerStep, Action.readerStep])).run
      (publishMany a 2 n)).step Action.readerStep)
    (by rw [e1]) (by rw [e1]; exact i3.trans i5.symm)
  have run4 : ({} : Conc).run
      (publishSteps 0 1 ++ [Action.readerStep, Action.readerStep, Action.readerStep] ++
        publishMany a 2 n ++ [Action.readerStep, Action.readerStep]) =
      (((({} : Conc).run (publishSteps 0 1 ++
        [Action.readerStep, Action.readerStep, Action.readerStep])).run
        (publishMany a 2 n)).step Action.readerStep).step Action.readerStep := by
    rw [Conc.run_append, Conc.run_append]
    rfl
  rw [run4, e2, e1]
  refine ⟨rfl, ?_, i7, ?_⟩
  · have mix : ∀ x y : CacheData, x = { angle_rad := 0, raw_mg := 0 } →
        y = { angle_rad := a, raw_mg := 2 } →
        ({ x with raw_mg := y.raw_mg } : CacheData) = { angle_rad := 0, raw_mg := 2 } := by
      intro x y hx hy
      rw [hx, hy]
    exact mix _ _ i4 i6'
  · show _ ∉ Conc.published _
    rw [i7]
    simp only [List.singleton_append, List.mem_cons, List.mem_replicate, not_or]
    constructor
    · intro h
      cases h
    · rintro ⟨_, h⟩
      exact ha (congrArg CacheData.angle_rad h).symm

/-! ## Claims -/

/-- C1: for every driver state and every three received bytes whose frame has
low 6 bits different from the CRC6 of its top 18 bits, a completion with
status OK leaves the sample cache as it was: cached angle and diagnostic
nibble, generation counter and validity flag are unchanged. -/
theorem C1_rejected_frame_keeps_cache (crc6 : Nat → Nat → Nat) (in_isr : Bool)
    (bus : ErrorCode) (b0 b1 b2 : Nat) (s : State)
    (h : frame24 b0 b1 b2 % 64 ≠ u8 (crc6 (frame24 b0 b1 b2 / 64) 18)) :
    (complete crc6 in_isr ErrorCode.OK b0 b1 b2 bus s).cache_data.angle_rad =
      s.cache_data.angle_rad ∧
    (complete crc6 in_isr ErrorCode.OK b0 b1 b2 bus s).cache_data.raw_mg =
      s.cache_data.raw_mg ∧
    (complete crc6 in_isr ErrorCode.OK b0 b1 b2 bus s).cache_seq = s.cache_seq ∧
    (complete crc6 in_isr ErrorCode.OK b0 b1 b2 bus s).cache_valid = s.cache_valid := by
  obtain ⟨h1, h2, h3⟩ := complete_cache_of_reject crc6 in_isr b0 b1 b2 bus s h
  rw [h1, h2, h3]
  exact ⟨rfl, rfl, rfl, rfl⟩

/-- Witness of C1: with a check value that is always 0, the bytes 00 00 01
form a rejected frame, delivered to a freshly constructed driver. -/
theorem C1_rejected_frame_keeps_cache_witness :
    frame24 0 0 1 % 64 ≠ u8 ((fun _ _ => 0) (frame24 0 0 1 / 64) 18) ∧
    (complete (fun _ _ => 0) true ErrorCode.OK 0 0 1 ErrorCode.OK
        (construct ErrorCode.OK)).cache_valid = (construct ErrorCode.OK).cache_valid :=
  ⟨by decide,
   (C1_rejected_frame_keeps_cache (fun _ _ => 0) true ErrorCode.OK 0 0 1
      (construct ErrorCode.OK) (by decide)).2.2.2⟩


/-- C2: for every driver state between cache writes (even generation counter)
and every three received bytes whose frame `f` has low 6 bits equal to the
CRC6 of its top 18 bits, a completion with status OK publishes the sample
decoded from `f`: afterwards the readers return the angle
`(bits 23..10 of f) * RAD_PER_LSB`, a single-precision product with
`RAD_PER_LSB = 2π/16384` that lies within `2^-21` of the real number
`(bits 23..10 of f) * (2π / 16384)`, and the diagnostic nibble `bits 9..6 of f`. -/
theorem C2_accepted_frame_published (crc6 : Nat → Nat → Nat) (in_isr : Bool)
    (bus : ErrorCode) (b0 b1 b2 : Nat) (s : State) (fuel : Nat)
    (hs : s.cache_seq % 2 = 0)
    (h : frame24 b0 b1 b2 % 64 = u8 (crc6 (frame24 b0 b1 b2 / 64) 18)) :
    ReadAngleRad (fuel + 1) (complete crc6 in_isr ErrorCode.OK b0 b1 b2 bus s) =
      some (f32Mul (f32OfNat (frame24 b0 b1 b2 / 1024)) RAD_PER_LSB) ∧
    GetRawMg (fuel + 1) (complete crc6 in_isr ErrorCode.OK b0 b1 b2 bus s) =
      some (frame24 b0 b1 b2 / 64 % 16) ∧
    RAD_PER_LSB = TWO_PI_F / 16384 ∧
    |((f32Mul (f32OfNat (frame24 b0 b1 b2 / 1024)) RAD_PER_LSB : ℚ) : ℝ) -
        ((frame24 b0 b1 b2 / 1024 : ℕ) : ℝ) * (2 * Real.pi / 16384)| < 1 / 2097152 := by
  obtain ⟨h1, h2, h3⟩ := complete_cache_of_accept crc6 in_isr b0 b1 b2 bus s h
  have he : (complete crc6 in_isr ErrorCode.OK b0 b1 b2 bus s).cache_seq % 2 = 0 := by
    rw [h2]
    exact u32_add_two_even _ hs
  have hlt : frame24 b0 b1 b2 / 1024 < 16384 := by
    have := frame24_lt b0 b1 b2
    omega
  refine ⟨?_, ?_, ?_, angle_close _ hlt⟩
  · rw [ReadAngleRad_ok fuel _ h3 he, h1]
  · unfold GetRawMg
    rw [ReadRawMg_ok fuel _ h3 he, h1]
  · rw [RAD_PER_LSB_eq, TWO_PI_F_eq]
    norm_num

/-- Witness of C2: with a check value that is always 0, the bytes 80 00 C0
(position 8192, diagnostic 3, check 0) are delivered to a fresh driver. -/
theorem C2_accepted_frame_published_witness :
    (construct ErrorCode.OK).cache_seq % 2 = 0 ∧
    frame24 0x80 0x00 0xC0 % 64 = u8 ((fun _ _ => 0) (frame24 0x80 0x00 0xC0 / 64) 18) ∧
    GetRawMg 1 (complete (fun _ _ => 0) true ErrorCode.OK 0x80 0x00 0xC0 ErrorCode.OK
      (construct ErrorCode.OK)) = some (frame24 0x80 0x00 0xC0 / 64 % 16) :=
  ⟨by decide, by decide,
   (C2_accepted_frame_published (fun _ _ => 0) true ErrorCode.OK 0x80 0x00 0xC0
      (construct ErrorCode.OK) 0 (by decide) (by decide)).2.1⟩


/-- C3: on a frame that passes the check, `DecodeFrame` produces the
single-precision product of the 14-bit position with `RAD_PER_LSB = 2π/16384`;
position 0 gives 0.0, position 8192 gives the single-precision `2π/2`, which
is the binary32 value nearest to π, and position 16383 gives the
single-precision `2π - 2π/16384`, within `2^-21` of that real number. -/
theorem C3_decode_boundary_angles (crc6 : Nat → Nat → Nat) (f : Nat) (a0 : F32)
    (h : (DecodeFrame crc6 f a0).1 = true) :
    (DecodeFrame crc6 f a0).2 = f32Mul (f32OfNat (f / 1024 % 16384)) RAD_PER_LSB ∧
    RAD_PER_LSB = TWO_PI_F / 16384 ∧
    (f / 1024 % 16384 = 0 → (DecodeFrame crc6 f a0).2 = 0) ∧
    (f / 1024 % 16384 = 8192 →
      (DecodeFrame crc6 f a0).2 = TWO_PI_F / 2 ∧
      (DecodeFrame crc6 f a0).2 = 13176795 / 4194304 ∧
      |(((DecodeFrame crc6 f a0).2 : ℚ) : ℝ) - Real.pi| < 1 / 8388608) ∧
    (f / 1024 % 16384 = 16383 →
      (DecodeFrame crc6 f a0).2 = f32Sub TWO_PI_F RAD_PER_LSB ∧
      (DecodeFrame crc6 f a0).2 = 13175991 / 2097152 ∧
      |(((DecodeFrame crc6 f a0).2 : ℚ) : ℝ) - (2 * Real.pi - 2 * Real.pi / 16384)| <
        1 / 2097152) := by
  have hd := DecodeFrame_snd_of_accept crc6 f a0 h
  have hlo := Real.pi_gt_d20
  have hhi := Real.pi_lt_d20
  refine ⟨hd, ?_, ?_, ?_, ?_⟩
  · rw [RAD_PER_LSB_eq, TWO_PI_F_eq]
    norm_num
  · intro h0
    rw [hd, h0, angle_raw_0]
  · intro h0
    rw [hd, h0, angle_raw_8192]
    refine ⟨?_, rfl, ?_⟩
    · rw [TWO_PI_F_eq]
      norm_num
    · rw [abs_lt]
      constructor <;> norm_num <;> linarith
  · intro h0
    rw [hd, h0, angle_raw_16383]
    refine ⟨f32Sub_TWO_PI_F_RAD_PER_LSB.symm, rfl, ?_⟩
    rw [abs_lt]
    constructor <;> norm_num <;> linarith

/-- Witness of C3: with a check value that is always 0, the frame 0x800000
(position 8192, check 0) is accepted and decodes to the binary32 π. -/
theorem C3_decode_boundary_angles_witness :
    (DecodeFrame (fun _ _ => 0) 0x800000 0).1 = true ∧
    (DecodeFrame (fun _ _ => 0) 0x800000 0).2 = 13176795 / 4194304 :=
  ⟨by decide,
   ((C3_decode_boundary_angles (fun _ _ => 0) 0x800000 0 (by decide)).2.2.2.1
      (by decide)).2.1⟩

/-- C4: every angle the driver can report lies in `[0, 2π)`: the angle that
`DecodeFrame` produces for an accepted frame does, and so does the value
returned by `ReadAngleRad` in every state reachable from construction. -/
theorem C4_angle_in_range (crc6 : Nat → Nat → Nat) :
    (∀ f a0, (DecodeFrame crc6 f a0).1 = true →
      0 ≤ (((DecodeFrame crc6 f a0).2 : ℚ) : ℝ) ∧
      (((DecodeFrame crc6 f a0).2 : ℚ) : ℝ) < 2 * Real.pi) ∧
    (∀ s, Reachable crc6 s → ∀ fuel, ∃ a, ReadAngleRad (fuel + 1) s = some a ∧
      0 ≤ ((a : ℚ) : ℝ) ∧ ((a : ℚ) : ℝ) < 2 * Real.pi) := by
  have hpi := Real.pi_gt_d4
  have key : ∀ a : ℚ, 0 ≤ a → a ≤ 6283 / 1000 →
      0 ≤ ((a : ℚ) : ℝ) ∧ ((a : ℚ) : ℝ) < 2 * Real.pi := by
    intro a h0 h1
    have h0' : ((0 : ℚ) : ℝ) ≤ ((a : ℚ) : ℝ) := Rat.cast_le.2 h0
    have h1' : ((a : ℚ) : ℝ) ≤ ((6283 / 1000 : ℚ) : ℝ) := Rat.cast_le.2 h1
    push_cast at h0' h1'
    constructor
    · exact h0'
    · linarith
  constructor
  · intro f a0 h
    have hlt : f / 1024 % 16384 < 16384 := Nat.mod_lt _ (by decide)
    rw [DecodeFrame_snd_of_accept crc6 f a0 h]
    exact key _ (angle_nonneg _ hlt) (angle_le _ hlt)
  · intro s hs fuel
    obtain ⟨he, h0, h1, _⟩ := Reachable_cache crc6 hs
    cases hv : s.cache_valid
    · exact ⟨0, ReadAngleRad_empty _ s hv, key 0 le_rfl (by norm_num)⟩
    · exact ⟨_, ReadAngleRad_ok fuel s hv he, key _ h0 h1⟩

/-- Witness of C4: with a check value that is always 0, the frame FF FC 00
(position 16383, check 0) is delivered to a fresh driver with a transfer
outstanding; the angle read afterwards is in range. -/
theorem C4_angle_in_range_witness :
    ∃ a, ReadAngleRad 1 (complete (fun _ _ => 0) true ErrorCode.OK 0xFF 0xFC 0x00
        ErrorCode.OK (construct ErrorCode.OK)) = some a ∧
      0 ≤ ((a : ℚ) : ℝ) ∧ ((a : ℚ) : ℝ) < 2 * Real.pi :=
  (C4_angle_in_range (fun _ _ => 0)).2 _
    (Reachable.complete true ErrorCode.OK 0xFF 0xFC 0x00 ErrorCode.OK
      (Reachable.construct ErrorCode.OK) (by decide)) 0


/-- C5: with a valid cache holding diagnostic nibble `d`: for `d = 0b1000`
`IsOverspeed` returns true and `IsPushDetected`, `IsFieldTooStrong`,
`IsFieldTooWeak` return false; for `d = 0b0001` `IsFieldTooStrong` returns
true; for `d = 0b0010` `IsFieldTooWeak` returns true; for `d = 0b0100`
`IsPushDetected` returns true. -/
theorem C5_diagnostic_flags (s : State) (fuel : Nat)
    (hv : s.cache_valid = true) (he : s.cache_seq % 2 = 0) :
    (s.cache_data.raw_mg = 0b1000 →
      IsOverspeed (fuel + 1) s = some true ∧ IsPushDetected (fuel + 1) s = some false ∧
      IsFieldTooStrong (fuel + 1) s = some false ∧
      IsFieldTooWeak (fuel + 1) s = some false) ∧
    (s.cache_data.raw_mg = 0b0001 → IsFieldTooStrong (fuel + 1) s = some true) ∧
    (s.cache_data.raw_mg = 0b0010 → IsFieldTooWeak (fuel + 1) s = some true) ∧
    (s.cache_data.raw_mg = 0b0100 → IsPushDetected (fuel + 1) s = some true) := by
  have hr := ReadRawMg_ok fuel s hv he
  refine ⟨fun h => ?_, fun h => ?_, fun h => ?_, fun h => ?_⟩ <;>
    simp only [IsOverspeed, IsPushDetected, IsFieldTooStrong, IsFieldTooWeak, hr, h,
      Option.map_some'] <;> decide

/-- Witness of C5: a fresh cache in which the sample (0.0, 0b1000) has been
published. -/
theorem C5_diagnostic_flags_witness :
    (StoreSample 0 0b1000 {}).cache_valid = true ∧
    (StoreSample 0 0b1000 {}).cache_seq % 2 = 0 ∧
    (StoreSample 0 0b1000 {}).cache_data.raw_mg = 0b1000 ∧
    IsOverspeed 1 (StoreSample 0 0b1000 {}) = some true :=
  ⟨by decide, by decide, by decide,
   ((C5_diagnostic_flags (StoreSample 0 0b1000 {}) 0 (by decide) (by decide)).1
      (by decide)).1⟩

/-- C6, as stated, fails: with the valid nibble `0b0011` in the cache the two
field-strength flags are false, while the single-bit projections
`(d & 0b0001) != 0` and `(d & 0b0010) != 0` are true. -/
theorem C6_single_bit_projection_counterexample :
    (StoreSample 0 0b0011 {}).cache_valid = true ∧
    (StoreSample 0 0b0011 {}).cache_data.raw_mg = 0b0011 ∧
    IsFieldTooStrong 1 (StoreSample 0 0b0011 {}) = some false ∧
    IsFieldTooStrong 1 (StoreSample 0 0b0011 {}) ≠ some ((0b0011 &&& 0b0001) != 0) ∧
    IsFieldTooWeak 1 (StoreSample 0 0b0011 {}) = some false ∧
    IsFieldTooWeak 1 (StoreSample 0 0b0011 {}) ≠ some ((0b0011 &&& 0b0010) != 0) := by
  have hr := ReadRawMg_ok 0 (StoreSample 0 0b0011 {}) (by decide) (by decide)
  have hd : (StoreSample 0 0b0011 {}).cache_data.raw_mg = 3 := by decide
  refine ⟨by decide, hd, ?_, ?_, ?_, ?_⟩ <;>
    simp only [IsFieldTooStrong, IsFieldTooWeak, hr, hd, Option.map_some'] <;> decide

/-- C6, amended: for every diagnostic nibble `d` held in a valid cache,
`IsOverspeed = ((d & 0b1000) != 0)`, `IsPushDetected = ((d & 0b0100) != 0)`,
`GetMagnetStrength = d & 0b0011`, `IsFieldTooStrong = ((d & 0b0011) == 0b0001)`
and `IsFieldTooWeak = ((d & 0b0011) == 0b0010)`; the last two are the
single-bit projections `(d & 0b0001) != 0` and `(d & 0b0010) != 0` unless both
low bits of `d` are set. -/
theorem C6_mask_projections (s : State) (fuel : Nat)
    (hv : s.cache_valid = true) (he : s.cache_seq % 2 = 0)
    (hd : s.cache_data.raw_mg < 16) :
    IsOverspeed (fuel + 1) s = some ((s.cache_data.raw_mg &&& 0b1000) != 0) ∧
    IsPushDetected (fuel + 1) s = some ((s.cache_data.raw_mg &&& 0b0100) != 0) ∧
    GetMagnetStrength (fuel + 1) s = some (s.cache_data.raw_mg &&& 0b0011) ∧
    IsFieldTooStrong (fuel + 1) s = some ((s.cache_data.raw_mg &&& 0b0011) == 0b0001) ∧
    IsFieldTooWeak (fuel + 1) s = some ((s.cache_data.raw_mg &&& 0b0011) == 0b0010) ∧
    (s.cache_data.raw_mg &&& 0b0011 ≠ 0b0011 →
      IsFieldTooStrong (fuel + 1) s = some ((s.cache_data.raw_mg &&& 0b0001) != 0) ∧
      IsFieldTooWeak (fuel + 1) s = some ((s.cache_data.raw_mg &&& 0b0010) != 0)) := by
  have hr := ReadRawMg_ok fuel s hv he
  simp only [IsOverspeed, IsPushDetected, IsFieldTooStrong, IsFieldTooWeak,
    GetMagnetStrength, hr, Option.map_some', u8]
  generalize s.cache_data.raw_mg = d at hd
  revert d
  decide

/-- Witness of C6 (amended): a fresh cache in which the sample (0.0, 0b0011)
has been published. -/
theorem C6_mask_projections_witness :
    (StoreSample 0 0b0011 {}).cache_valid = true ∧
    (StoreSample 0 0b0011 {}).cache_seq % 2 = 0 ∧
    (StoreSample 0 0b0011 {}).cache_data.raw_mg < 16 ∧
    GetMagnetStrength 1 (StoreSample 0 0b0011 {}) =
      some ((StoreSample 0 0b0011 {}).cache_data.raw_mg &&& 0b0011) :=
  ⟨by decide, by decide, by decide,
   (C6_mask_projections (StoreSample 0 0b0011 {}) 0 (by decide) (by decide)
      (by decide)).2.2.1⟩

/-- C7: publish/read round trip without interleaving: for every cache state
between writes (even generation counter), every angle `a` and every 4-bit
diagnostic value `d`, once `StoreSample(a, d)` has completed, `LoadCache`
returns OK with exactly `(a, d)`, on every call until the next
`StoreSample`; a call reads the state and does not change it. -/
theorem C7_store_then_load (s : State) (a : F32) (d : Nat) (c : CacheData) (fuel : Nat)
    (he : s.cache_seq % 2 = 0) (hd : d < 16) :
    LoadCache (fuel + 1) (StoreSample a d s) c =
      some (ErrorCode.OK, { angle_rad := a, raw_mg := d }) := by
  have h1 : (StoreSample a d s).cache_valid = true := rfl
  have h2 : (StoreSample a d s).cache_seq % 2 = 0 := u32_add_two_even _ he
  have h3 : u8 (d &&& 0x0F) = d := by
    rw [and_0x0F]
    unfold u8
    omega
  rw [LoadCache_ok fuel _ c h1 h2]
  simp [StoreSample, h3]

/-- Witness of C7: the sample (binary32 π, 0b0101) published in a fresh cache
and read back. -/
theorem C7_store_then_load_witness :
    (({} : State).cache_seq % 2 = 0 ∧ 5 < 16) ∧
    LoadCache 1 (StoreSample (13176795 / 4194304) 5 {}) {} =
      some (ErrorCode.OK, { angle_rad := 13176795 / 4194304, raw_mg := 5 }) :=
  ⟨⟨by decide, by decide⟩,
   C7_store_then_load {} (13176795 / 4194304) 5 {} 0 (by decide) (by decide)⟩

/-- C8: while the validity flag is false, `LoadCache` reports EMPTY without
touching the caller's buffer and the public readers yield the defaults:
angle 0, diagnostic nibble 0, strength code 0 and all four flags false,
whatever the cache data fields and the generation counter contain; the flag
is false when the constructor returns. -/
theorem C8_empty_cache_defaults (s : State) (fuel : Nat) (c : CacheData)
    (hv : s.cache_valid = false) :
    LoadCache fuel s c = some (ErrorCode.EMPTY, c) ∧
    ReadAngleRad fuel s = some 0 ∧ GetRawMg fuel s = some 0 ∧
    GetMagnetStrength fuel s = some 0 ∧
    IsOverspeed fuel s = some false ∧ IsPushDetected fuel s = some false ∧
    IsFieldTooStrong fuel s = some false ∧ IsFieldTooWeak fuel s = some false ∧
    (∀ bus, (construct bus).cache_valid = false) := by
  have hr := ReadRawMg_empty fuel s hv
  refine ⟨LoadCache_empty fuel s c hv, ReadAngleRad_empty fuel s hv, hr, ?_, ?_, ?_, ?_, ?_, ?_⟩
  · simp only [GetMagnetStrength, hr, Option.map_some']
    decide
  · simp only [IsOverspeed, hr, Option.map_some']
    decide
  · simp only [IsPushDetected, hr, Option.map_some']
    decide
  · simp only [IsFieldTooStrong, hr, Option.map_some']
    decide
  · simp only [IsFieldTooWeak, hr, Option.map_some']
    decide
  · intro bus
    unfold construct
    rw [(Start_cache bus _).2.2]
    rfl

/-- Witness of C8: a driver whose constructor has just returned, with stale
data left in the cache fields. -/
theorem C8_empty_cache_defaults_witness :
    ({ construct ErrorCode.OK with
        cache_data := { angle_rad := 1, raw_mg := 15 } } : State).cache_valid = false ∧
    ReadAngleRad 0 { construct ErrorCode.OK with
        cache_data := { angle_rad := 1, raw_mg := 15 } } = some 0 :=
  ⟨by decide,
   (C8_empty_cache_defaults { construct ErrorCode.OK with
        cache_data := { angle_rad := 1, raw_mg := 15 } } 0 {} (by decide)).2.1⟩


/-- C9: in the step model of the driver (construction, `Start`, `Stop`, the
bus accepting or rejecting an issued request, completion of the outstanding
transfer with any status and bytes) every reachable state has at most one bus
transfer issued and not yet completed, and transfer-pending is true exactly
when one is outstanding; an arm attempt made while transfer-pending is true
changes nothing, so it writes no select level and issues no bus request. -/
theorem C9_at_most_one_outstanding (crc6 : Nat → Nat → Nat) (s : State)
    (h : Reachable crc6 s) :
    s.outstanding ≤ 1 ∧ (s.transfer_pending = true ↔ s.outstanding = 1) ∧
    (∀ (t : State) (in_isr : Bool) (bus : ErrorCode), t.transfer_pending = true →
      TryStartTransfer in_isr bus t = t) :=
  ⟨(Reachable_transfer crc6 h).1, (Reachable_transfer crc6 h).2,
   fun t in_isr bus ht => TryStartTransfer_of_pending in_isr bus t ht⟩

/-- Witness of C9: a driver just constructed on a bus that accepts the first
request, then asked to start again. -/
theorem C9_at_most_one_outstanding_witness :
    (Start ErrorCode.OK (construct ErrorCode.OK)).outstanding ≤ 1 ∧
    ((Start ErrorCode.OK (construct ErrorCode.OK)).transfer_pending = true ↔
      (Start ErrorCode.OK (construct ErrorCode.OK)).outstanding = 1) :=
  ⟨(C9_at_most_one_outstanding (fun _ _ => 0) _
      (Reachable.start ErrorCode.OK (Reachable.construct ErrorCode.OK))).1,
   (C9_at_most_one_outstanding (fun _ _ => 0) _
      (Reachable.start ErrorCode.OK (Reachable.construct ErrorCode.OK))).2.1⟩

/-- C10: for every state with polling-active false and transfer-pending false
in which the bus accepts the request, `Start()` arms exactly one transfer: it
writes the select line low once, issues exactly one 3-byte read-and-write
request, and ends with polling-active and transfer-pending true; until that
transfer completes, further `Start()` calls (directly or after `Stop()`)
return to that same state, so they issue nothing more. -/
theorem C10_start_arms_one_transfer (s : State)
    (hr : s.running = false) (hp : s.transfer_pending = false) :
    (Start ErrorCode.OK s).trace = s.trace ++
      [Effect.CsWrite false, Effect.ReadAndWrite 3 3 s.tx_buf.bytes false] ∧
    (Start ErrorCode.OK s).outstanding = s.outstanding + 1 ∧
    (Start ErrorCode.OK s).cs_level = false ∧
    (Start ErrorCode.OK s).running = true ∧
    (Start ErrorCode.OK s).transfer_pending = true ∧
    (∀ bus, Start bus (Start ErrorCode.OK s) = Start ErrorCode.OK s) ∧
    (∀ bus, Start bus (Stop (Start ErrorCode.OK s)) = Start ErrorCode.OK s) ∧
    (Stop (Stop (Start ErrorCode.OK s)) = Stop (Start ErrorCode.OK s)) := by
  have e : Start ErrorCode.OK s =
      { s with
        running := true
        transfer_pending := true
        cs_level := false
        outstanding := s.outstanding + 1
        trace := s.trace ++
          [Effect.CsWrite false, Effect.ReadAndWrite 3 3 s.tx_buf.bytes false] } := by
    simp only [Start, hr, Bool.not_false, if_true]
    rw [TryStartTransfer_of_accept false { s with running := true } rfl hp]
    rfl
  rw [e]
  refine ⟨rfl, rfl, rfl, rfl, rfl, ?_, ?_, rfl⟩
  · intro bus
    simp [Start]
  · intro bus
    simp only [Start, Stop, Bool.not_false, if_true]
    rw [TryStartTransfer_of_pending _ _ _ rfl]

/-- Witness of C10: a driver stopped after a bus failure at construction is
started again on a bus that now accepts. -/
theorem C10_start_arms_one_transfer_witness :
    ((construct (ErrorCode.OTHER 1)).running = false ∧
      (construct (ErrorCode.OTHER 1)).transfer_pending = false) ∧
    (Start ErrorCode.OK (construct (ErrorCode.OTHER 1))).trace =
      (construct (ErrorCode.OTHER 1)).trace ++
        [Effect.CsWrite false, Effect.ReadAndWrite 3 3 [0, 0, 0] false] :=
  ⟨⟨by decide, by decide⟩,
   (C10_start_arms_one_transfer (construct (ErrorCode.OTHER 1)) (by decide) (by decide)).1⟩


/-- C11, as stated, fails in its last part: on a driver constructed on a bus
that rejects every request, `Start()` makes an arm attempt that ends in the
fault path with polling-active false, and a second `Start()` makes another
attempt, so `Start(); Start()` is not `Start()`. -/
theorem C11_start_twice_counterexample :
    (construct (ErrorCode.OTHER 1)).running = false ∧
    (Start (ErrorCode.OTHER 1) (construct (ErrorCode.OTHER 1))).running = false ∧
    (Start (ErrorCode.OTHER 1)
        (Start (ErrorCode.OTHER 1) (construct (ErrorCode.OTHER 1)))).trace =
      (Start (ErrorCode.OTHER 1) (construct (ErrorCode.OTHER 1))).trace ++
        [Effect.CsWrite false, Effect.ReadAndWrite 3 3 [0, 0, 0] false,
         Effect.CsWrite true, Effect.Fault false] ∧
    Start (ErrorCode.OTHER 1)
        (Start (ErrorCode.OTHER 1) (construct (ErrorCode.OTHER 1))) ≠
      Start (ErrorCode.OTHER 1) (construct (ErrorCode.OTHER 1)) :=
  ⟨by decide, by decide, by decide,
   fun h => absurd (congrArg State.trace h) (by decide)⟩

/-- C11, amended: for every state in which polling-active is already true,
`Start()` leaves every field of the state unchanged, so it writes no select
level and issues no bus request; consequently `Start(); Start()` has the same
effect as `Start()` whenever the first call leaves polling-active true, which
it does if polling was active, if a transfer was pending, or if the bus
accepts the request. -/
theorem C11_start_idempotent_when_active (s : State) (bus : ErrorCode)
    (hr : s.running = true) :
    Start bus s = s ∧
    (∀ (t : State) (b1 b2 : ErrorCode), (Start b1 t).running = true →
      Start b2 (Start b1 t) = Start b1 t) ∧
    (∀ (t : State) (b1 : ErrorCode),
      t.running = true ∨ t.transfer_pending = true ∨ b1 = ErrorCode.OK →
      (Start b1 t).running = true) := by
  have key : ∀ (t : State) (b : ErrorCode), t.running = true → Start b t = t := by
    intro t b ht
    cases t
    simp only at ht
    simp [Start, ht]
  refine ⟨key s bus hr, fun t b1 b2 h => key _ b2 h, ?_⟩
  intro t b1 h
  cases hrun : t.running
  · cases hp : t.transfer_pending
    · rcases h with h | h | h
      · rw [hrun] at h
        cases h
      · rw [hp] at h
        cases h
      · subst h
        simp only [Start, hrun, Bool.not_false, if_true]
        rw [TryStartTransfer_of_accept false { t with running := true } rfl hp]
    · simp only [Start, hrun, Bool.not_false, if_true]
      rw [TryStartTransfer_of_pending false b1 { t with running := true } hp]
  · rw [key t b1 hrun]
    exact hrun

/-- Witness of C11 (amended): a driver constructed on an accepting bus is
active, and is started again. -/
theorem C11_start_idempotent_when_active_witness :
    (construct ErrorCode.OK).running = true ∧
    Start (ErrorCode.OTHER 1) (construct ErrorCode.OK) = construct ErrorCode.OK :=
  ⟨by decide,
   (C11_start_idempotent_when_active (construct ErrorCode.OK) (ErrorCode.OTHER 1)
      (by decide)).1⟩

/-- C12: `Stop()` only sets polling-active to false (transfer-pending, cache,
select line, bus and call log are untouched), and for every state with
polling-active false, the completion with status OK of the outstanding
transfer, for any received bytes, clears transfer-pending and arms no new
transfer: the only call made is the select-line write to the high level and
the final state is inactive and idle. -/
theorem C12_stop_then_completion_does_not_rearm (crc6 : Nat → Nat → Nat) (in_isr : Bool)
    (b0 b1 b2 : Nat) (bus : ErrorCode) (s : State) (hr : s.running = false) :
    (∀ t : State, (Stop t).running = false ∧
      (Stop t).transfer_pending = t.transfer_pending ∧
      (Stop t).cache_data = t.cache_data ∧ (Stop t).cache_seq = t.cache_seq ∧
      (Stop t).cache_valid = t.cache_valid ∧ (Stop t).cs_level = t.cs_level ∧
      (Stop t).outstanding = t.outstanding ∧ (Stop t).trace = t.trace ∧
      (Stop t).rx_buf = t.rx_buf ∧ (Stop t).tx_buf = t.tx_buf) ∧
    (complete crc6 in_isr ErrorCode.OK b0 b1 b2 bus s).transfer_pending = false ∧
    (complete crc6 in_isr ErrorCode.OK b0 b1 b2 bus s).running = false ∧
    (complete crc6 in_isr ErrorCode.OK b0 b1 b2 bus s).trace =
      s.trace ++ [Effect.CsWrite true] ∧
    (complete crc6 in_isr ErrorCode.OK b0 b1 b2 bus s).cs_level = true ∧
    (complete crc6 in_isr ErrorCode.OK b0 b1 b2 bus s).outstanding = s.outstanding - 1 := by
  refine ⟨fun t => ⟨rfl, rfl, rfl, rfl, rfl, rfl, rfl, rfl, rfl, rfl⟩, ?_⟩
  obtain ⟨h1, h2, h3, h4, h5⟩ :=
    OnTransferDone_ok_control crc6 in_isr bus (deliver b0 b1 b2 s)
  have e := TryStartTransfer_of_not_running in_isr bus
    { deliver b0 b1 b2 s with
      transfer_pending := false
      cs_level := true
      trace := (deliver b0 b1 b2 s).trace ++ [Effect.CsWrite true] } hr
  unfold complete
  rw [h1, h2, h3, h4, h5, e]
  exact ⟨rfl, hr, rfl, rfl, rfl⟩

/-- Witness of C12: a driver with a transfer in flight is stopped, then the
transfer completes with status OK. -/
theorem C12_stop_then_completion_does_not_rearm_witness :
    (Stop (construct ErrorCode.OK)).running = false ∧
    (complete (fun _ _ => 0) true ErrorCode.OK 0x80 0x00 0x00 ErrorCode.OK
        (Stop (construct ErrorCode.OK))).trace =
      (Stop (construct ErrorCode.OK)).trace ++ [Effect.CsWrite true] :=
  ⟨by decide,
   (C12_stop_then_completion_does_not_rearm (fun _ _ => 0) true 0x80 0x00 0x00
      ErrorCode.OK (Stop (construct ErrorCode.OK)) (by decide)).2.2.2.1⟩

/-- C13: for every state and every status other than OK, `OnTransferDone`
writes the select line high, sets transfer-pending and polling-active to
false, raises the fatal fault, issues no bus request and leaves the sample
cache unchanged; in the resulting state arm attempts and `Stop()` change
nothing, so no transfer is armed until `Start()` is called. -/
theorem C13_completion_failure_halts (crc6 : Nat → Nat → Nat) (in_isr : Bool)
    (err bus : ErrorCode) (s : State) (he : err ≠ ErrorCode.OK) :
    (OnTransferDone crc6 in_isr err bus s).cs_level = true ∧
    (OnTransferDone crc6 in_isr err bus s).transfer_pending = false ∧
    (OnTransferDone crc6 in_isr err bus s).running = false ∧
    (OnTransferDone crc6 in_isr err bus s).trace =
      s.trace ++ [Effect.CsWrite true, Effect.Fault in_isr] ∧
    (OnTransferDone crc6 in_isr err bus s).outstanding = s.outstanding ∧
    (OnTransferDone crc6 in_isr err bus s).cache_data = s.cache_data ∧
    (OnTransferDone crc6 in_isr err bus s).cache_seq = s.cache_seq ∧
    (OnTransferDone crc6 in_isr err bus s).cache_valid = s.cache_valid ∧
    (∀ (i : Bool) (b : ErrorCode),
      TryStartTransfer i b (OnTransferDone crc6 in_isr err bus s) =
        OnTransferDone crc6 in_isr err bus s) ∧
    Stop (OnTransferDone crc6 in_isr err bus s) = OnTransferDone crc6 in_isr err bus s := by
  rw [OnTransferDone_of_error crc6 in_isr err bus s he]
  refine ⟨rfl, rfl, rfl, rfl, rfl, rfl, rfl, rfl, ?_, rfl⟩
  intro i b
  exact TryStartTransfer_of_not_running i b _ rfl

/-- Witness of C13: the transfer armed by the constructor completes with a
failure status delivered from interrupt context. -/
theorem C13_completion_failure_halts_witness :
    ErrorCode.OTHER 7 ≠ ErrorCode.OK ∧
    (OnTransferDone (fun _ _ => 0) true (ErrorCode.OTHER 7) ErrorCode.OK
        (deliver 0 0 0 (construct ErrorCode.OK))).running = false :=
  ⟨by decide,
   (C13_completion_failure_halts (fun _ _ => 0) true (ErrorCode.OTHER 7) ErrorCode.OK
      (deliver 0 0 0 (construct ErrorCode.OK)) (by decide)).2.2.1⟩

/-- C14: for every state with polling-active true and transfer-pending false,
if the bus rejects the issued request, the arm attempt ends with
transfer-pending false, polling-active false and the select line written
high, and raises the fatal fault (twice when called from interrupt context);
no transfer is left outstanding. -/
theorem C14_rejected_request_halts (in_isr : Bool) (bus : ErrorCode) (s : State)
    (hr : s.running = true) (hp : s.transfer_pending = false)
    (hb : bus ≠ ErrorCode.OK) :
    (TryStartTransfer in_isr bus s).transfer_pending = false ∧
    (TryStartTransfer in_isr bus s).running = false ∧
    (TryStartTransfer in_isr bus s).cs_level = true ∧
    (TryStartTransfer in_isr bus s).outstanding = s.outstanding ∧
    (TryStartTransfer in_isr bus s).trace =
      s.trace ++
        ([Effect.CsWrite false, Effect.ReadAndWrite 3 3 s.tx_buf.bytes in_isr,
          Effect.CsWrite true, Effect.Fault in_isr] ++
         if in_isr then [Effect.Fault in_isr] else []) ∧
    Effect.Fault in_isr ∈ (TryStartTransfer in_isr bus s).trace := by
  rw [TryStartTransfer_of_reject in_isr bus s hr hp hb]
  refine ⟨rfl, rfl, rfl, rfl, rfl, ?_⟩
  simp

/-- Witness of C14: a stopped, idle driver is set active and makes an arm
attempt from interrupt context on a bus that rejects the request. -/
theorem C14_rejected_request_halts_witness :
    (({ construct (ErrorCode.OTHER 1) with running := true } : State).running = true ∧
      ({ construct (ErrorCode.OTHER 1) with running := true } : State).transfer_pending
        = false ∧
      ErrorCode.OTHER 2 ≠ ErrorCode.OK) ∧
    (TryStartTransfer true (ErrorCode.OTHER 2)
        { construct (ErrorCode.OTHER 1) with running := true }).cs_level = true :=
  ⟨⟨by decide, by decide, by decide⟩,
   (C14_rejected_request_halts true (ErrorCode.OTHER 2)
      { construct (ErrorCode.OTHER 1) with running := true }
      (by decide) (by decide) (by decide)).2.2.1⟩


/-- C15: a frame integrity rejection does not stop polling: for every state
with polling-active true, a completion with status OK whose frame fails the
check, on a bus that accepts the next request, raises no fault, keeps
polling-active true and arms exactly one next transfer (select line high,
then low, one request; transfer-pending true again), leaving the cache as it
was; and under every answer of the bus the transfer-control part of the
resulting state is the one a completion with any other frame, valid ones
included, produces. -/
theorem C15_integrity_rejection_keeps_polling (crc6 : Nat → Nat → Nat) (in_isr : Bool)
    (b0 b1 b2 : Nat) (s : State) (hr : s.running = true)
    (hc : frame24 b0 b1 b2 % 64 ≠ u8 (crc6 (frame24 b0 b1 b2 / 64) 18)) :
    (complete crc6 in_isr ErrorCode.OK b0 b1 b2 ErrorCode.OK s).running = true ∧
    (complete crc6 in_isr ErrorCode.OK b0 b1 b2 ErrorCode.OK s).transfer_pending = true ∧
    (complete crc6 in_isr ErrorCode.OK b0 b1 b2 ErrorCode.OK s).cs_level = false ∧
    (complete crc6 in_isr ErrorCode.OK b0 b1 b2 ErrorCode.OK s).outstanding =
      s.outstanding - 1 + 1 ∧
    (complete crc6 in_isr ErrorCode.OK b0 b1 b2 ErrorCode.OK s).trace =
      s.trace ++ [Effect.CsWrite true, Effect.CsWrite false,
        Effect.ReadAndWrite 3 3 s.tx_buf.bytes in_isr] ∧
    (complete crc6 in_isr ErrorCode.OK b0 b1 b2 ErrorCode.OK s).cache_data = s.cache_data ∧
    (complete crc6 in_isr ErrorCode.OK b0 b1 b2 ErrorCode.OK s).cache_valid =
      s.cache_valid ∧
    (∀ (bus : ErrorCode) (c0 c1 c2 : Nat),
      (complete crc6 in_isr ErrorCode.OK b0 b1 b2 bus s).running =
        (complete crc6 in_isr ErrorCode.OK c0 c1 c2 bus s).running ∧
      (complete crc6 in_isr ErrorCode.OK b0 b1 b2 bus s).transfer_pending =
        (complete crc6 in_isr ErrorCode.OK c0 c1 c2 bus s).transfer_pending ∧
      (complete crc6 in_isr ErrorCode.OK b0 b1 b2 bus s).cs_level =
        (complete crc6 in_isr ErrorCode.OK c0 c1 c2 bus s).cs_level ∧
      (complete crc6 in_isr ErrorCode.OK b0 b1 b2 bus s).outstanding =
        (complete crc6 in_isr ErrorCode.OK c0 c1 c2 bus s).outstanding ∧
      (complete crc6 in_isr ErrorCode.OK b0 b1 b2 bus s).trace =
        (complete crc6 in_isr ErrorCode.OK c0 c1 c2 bus s).trace) := by
  obtain ⟨k1, _, k3⟩ := complete_cache_of_reject crc6 in_isr b0 b1 b2 ErrorCode.OK s hc
  have ctl : ∀ (bus : ErrorCode) (x0 x1 x2 : Nat),
      (complete crc6 in_isr ErrorCode.OK x0 x1 x2 bus s).running =
        (TryStartTransfer in_isr bus { s with
          transfer_pending := false
          cs_level := true
          outstanding := s.outstanding - 1
          trace := s.trace ++ [Effect.CsWrite true] }).running ∧
      (complete crc6 in_isr ErrorCode.OK x0 x1 x2 bus s).transfer_pending =
        (TryStartTransfer in_isr bus { s with
          transfer_pending := false
          cs_level := true
          outstanding := s.outstanding - 1
          trace := s.trace ++ [Effect.CsWrite true] }).transfer_pending ∧
      (complete crc6 in_isr ErrorCode.OK x0 x1 x2 bus s).cs_level =
        (TryStartTransfer in_isr bus { s with
          transfer_pending := false
          cs_level := true
          outstanding := s.outstanding - 1
          trace := s.trace ++ [Effect.CsWrite true] }).cs_level ∧
      (complete crc6 in_isr ErrorCode.OK x0 x1 x2 bus s).outstanding =
        (TryStartTransfer in_isr bus { s with
          transfer_pending := false
          cs_level := true
          outstanding := s.outstanding - 1
          trace := s.trace ++ [Effect.CsWrite true] }).outstanding ∧
      (complete crc6 in_isr ErrorCode.OK x0 x1 x2 bus s).trace =
        (TryStartTransfer in_isr bus { s with
          transfer_pending := false
          cs_level := true
          outstanding := s.outstanding - 1
          trace := s.trace ++ [Effect.CsWrite true] }).trace := by
    intro bus x0 x1 x2
    obtain ⟨h1, h2, h3, h4, h5⟩ :=
      OnTransferDone_ok_control crc6 in_isr bus (deliver x0 x1 x2 s)
    unfold complete
    rw [h1, h2, h3, h4, h5]
    exact TryStartTransfer_control_congr in_isr bus _ _ rfl rfl rfl rfl rfl rfl
  have acc := TryStartTransfer_of_accept in_isr
    { s with
      transfer_pending := false
      cs_level := true
      outstanding := s.outstanding - 1
      trace := s.trace ++ [Effect.CsWrite true] } hr rfl
  obtain ⟨h1, h2, h3, h4, h5⟩ := ctl ErrorCode.OK b0 b1 b2
  refine ⟨?_, ?_, ?_, ?_, ?_, k1, k3, ?_⟩
  · rw [h1, acc]
    exact hr
  · rw [h2, acc]
  · rw [h3, acc]
  · rw [h4, acc]
  · rw [h5, acc]
    simp [Buf3.size]
  · intro bus c0 c1 c2
    obtain ⟨g1, g2, g3, g4, g5⟩ := ctl bus b0 b1 b2
    obtain ⟨f1, f2, f3, f4, f5⟩ := ctl bus c0 c1 c2
    exact ⟨g1.trans f1.symm, g2.trans f2.symm, g3.trans f3.symm, g4.trans f4.symm,
      g5.trans f5.symm⟩

/-- Witness of C15: with a check value that is always 0, the transfer armed
by the constructor completes with the bytes 00 00 01, whose check field is 1. -/
theorem C15_integrity_rejection_keeps_polling_witness :
    ((construct ErrorCode.OK).running = true ∧
      frame24 0 0 1 % 64 ≠ u8 ((fun _ _ => 0) (frame24 0 0 1 / 64) 18)) ∧
    (complete (fun _ _ => 0) true ErrorCode.OK 0 0 1 ErrorCode.OK
        (construct ErrorCode.OK)).transfer_pending = true :=
  ⟨⟨by decide, by decide⟩,
   (C15_integrity_rejection_keeps_polling (fun _ _ => 0) true 0 0 1
      (construct ErrorCode.OK) (by decide) (by decide)).2.1⟩

/-- C16: the select line is never left asserted across transfer boundaries:
in every state reachable from construction by `Start`, `Stop`, accepted or
rejected requests and completions with any status, whenever transfer-pending
is false the level last written to the select line is the high (deasserted)
one, and the line is at the low (asserted) level only while a transfer is
pending. -/
theorem C16_select_line_follows_pending (crc6 : Nat → Nat → Nat) (s : State)
    (h : Reachable crc6 s) :
    (s.transfer_pending = false → lastCsWrite s.trace = some true) ∧
    (lastCsWrite s.trace = some false → s.transfer_pending = true) ∧
    lastCsWrite s.trace = some s.cs_level ∧
    s.cs_level = !s.transfer_pending := by
  obtain ⟨h1, h2⟩ := Reachable_select crc6 h
  refine ⟨?_, ?_, h2, h1⟩
  · intro hp
    rw [h2, h1, hp]
    rfl
  · intro hl
    rw [h2, h1] at hl
    cases hp : s.transfer_pending
    · rw [hp] at hl
      simp at hl
    · rfl

/-- Witness of C16: the state after the transfer armed by the constructor
has completed with a failure status. -/
theorem C16_select_line_follows_pending_witness :
    lastCsWrite (complete (fun _ _ => 0) true (ErrorCode.OTHER 3) 0 0 0 ErrorCode.OK
      (construct ErrorCode.OK)).trace = some true :=
  (C16_select_line_follows_pending (fun _ _ => 0) _
    (Reachable.complete true (ErrorCode.OTHER 3) 0 0 0 ErrorCode.OK
      (Reachable.construct ErrorCode.OK) (by decide))).1 (by decide)


/-- C18: the validity flag is monotone: it is false when the constructor
returns, no operation (`Start`, `Stop`, an arm attempt, a completion with any
status and bytes) changes it from true to false, reads do not write it, and
it becomes true exactly at the first completion with status OK whose frame
passes the check: after any sequence of operations it is true if and only if
the sequence contains such a completion. -/
theorem C18_validity_flag_monotone (crc6 : Nat → Nat → Nat) :
    (∀ bus : ErrorCode, (construct bus).cache_valid = false) ∧
    (∀ (s : State) (op : Op), s.cache_valid = true →
      (applyOp crc6 s op).cache_valid = true) ∧
    (∀ (s : State) (in_isr : Bool) (bus : ErrorCode),
      (TryStartTransfer in_isr bus s).cache_valid = s.cache_valid) ∧
    (∀ (s : State) (op : Op), s.cache_valid = false →
      ((applyOp crc6 s op).cache_valid = true ↔ Op.publishes crc6 op = true)) ∧
    (∀ (bus : ErrorCode) (ops : List Op),
      (runOps crc6 (construct bus) ops).cache_valid = ops.any (Op.publishes crc6)) := by
  have step : ∀ (s : State) (op : Op),
      (applyOp crc6 s op).cache_valid = (s.cache_valid || Op.publishes crc6 op) := by
    intro s op
    cases op with
    | start bus => simp [applyOp, Op.publishes, (Start_cache bus s).2.2]
    | stop => simp [applyOp, Op.publishes, Stop]
    | complete in_isr err b0 b1 b2 bus =>
      simp only [applyOp, Op.publishes]
      by_cases he : err = ErrorCode.OK
      · subst he
        by_cases hc : frame24 b0 b1 b2 % 64 = u8 (crc6 (frame24 b0 b1 b2 / 64) 18)
        · rw [(complete_cache_of_accept crc6 in_isr b0 b1 b2 bus s hc).2.2]
          simp [hc]
        · rw [(complete_cache_of_reject crc6 in_isr b0 b1 b2 bus s hc).2.2]
          simp [hc]
      · rw [(complete_cache_of_error crc6 in_isr err b0 b1 b2 bus s he).2.2]
        simp [he]
  have h0 : ∀ bus : ErrorCode, (construct bus).cache_valid = false := by
    intro bus
    unfold construct
    rw [(Start_cache bus _).2.2]
    rfl
  have run : ∀ (ops : List Op) (s : State),
      (runOps crc6 s ops).cache_valid = (s.cache_valid || ops.any (Op.publishes crc6)) := by
    intro ops
    induction ops with
    | nil => intro s; simp [runOps]
    | cons op ops ih =>
      intro s
      have := ih (applyOp crc6 s op)
      simp only [runOps, List.foldl_cons] at this ⊢
      rw [this, step, List.any_cons, Bool.or_assoc]
  refine ⟨h0, ?_, ?_, ?_, ?_⟩
  · intro s op hv
    rw [step, hv]
    rfl
  · intro s in_isr bus
    exact (TryStartTransfer_cache in_isr bus s).2.2
  · intro s op hv
    rw [step, hv]
    simp
  · intro bus ops
    rw [run, h0]
    simp

/-- Witness of C18: after a rejected frame and then an accepted one the flag
is set, and a later failure status does not clear it (check value always 0). -/
theorem C18_validity_flag_monotone_witness :
    (runOps (fun _ _ => 0) (construct ErrorCode.OK)
      [Op.complete true ErrorCode.OK 0 0 1 ErrorCode.OK,
       Op.complete true ErrorCode.OK 0x80 0 0 ErrorCode.OK,
       Op.complete true (ErrorCode.OTHER 1) 0 0 0 ErrorCode.OK]).cache_valid = true :=
  ((C18_validity_flag_monotone (fun _ _ => 0)).2.2.2.2 ErrorCode.OK _).trans (by decide)

/-- C19: the generation counter is 0 when the constructor returns; each
`StoreSample` advances it by exactly 2 modulo 2^32, through two increments
that bracket the two field writes, so that from an even value it is odd after
the first increment and during the writes and even again after the second;
in every reachable state the counter is even; and an operation changes it
only by the `StoreSample` of a completion with status OK whose frame passes
the check. -/
theorem C19_generation_counter (crc6 : Nat → Nat → Nat) :
    (∀ bus : ErrorCode, (construct bus).cache_seq = 0) ∧
    (∀ (a : F32) (d : Nat) (s : State),
      (StoreSample a d s).cache_seq = (s.cache_seq + 2) % 4294967296) ∧
    (∀ (a : F32) (d : Nat) (s : State),
      StoreSample a d s =
        StoreSample.setValid (StoreSample.incSeq (StoreSample.writeMg d
          (StoreSample.writeAngle a (StoreSample.incSeq s))))) ∧
    (∀ (a : F32) (d : Nat) (s : State), s.cache_seq % 2 = 0 →
      (StoreSample.incSeq s).cache_seq % 2 = 1 ∧
      (StoreSample.writeAngle a (StoreSample.incSeq s)).cache_seq % 2 = 1 ∧
      (StoreSample.writeMg d (StoreSample.writeAngle a
        (StoreSample.incSeq s))).cache_seq % 2 = 1 ∧
      (StoreSample.incSeq (StoreSample.writeMg d (StoreSample.writeAngle a
        (StoreSample.incSeq s)))).cache_seq % 2 = 0 ∧
      (StoreSample a d s).cache_seq % 2 = 0) ∧
    (∀ s : State, Reachable crc6 s → s.cache_seq % 2 = 0) ∧
    (∀ (s : State) (op : Op), (applyOp crc6 s op).cache_seq =
      if Op.publishes crc6 op = true then (s.cache_seq + 2) % 4294967296
      else s.cache_seq) ∧
    (∀ (s : State) (in_isr : Bool) (bus : ErrorCode),
      (TryStartTransfer in_isr bus s).cache_seq = s.cache_seq) := by
  have two : ∀ n : Nat, u32 (u32 (n + 1) + 1) = (n + 2) % 4294967296 := by
    intro n
    unfold u32
    omega
  refine ⟨?_, ?_, ?_, ?_, ?_, ?_, ?_⟩
  · intro bus
    unfold construct
    rw [(Start_cache bus _).2.1]
    rfl
  · intro a d s
    exact two s.cache_seq
  · intro a d s
    rfl
  · intro a d s he
    have h1 : u32 (s.cache_seq + 1) % 2 = 1 := by
      unfold u32
      omega
    have h2 : u32 (u32 (s.cache_seq + 1) + 1) % 2 = 0 := u32_add_two_even _ he
    exact ⟨h1, h1, h1, h2, h2⟩
  · intro s hs
    exact (Reachable_cache crc6 hs).1
  · intro s op
    cases op with
    | start bus => simp [applyOp, Op.publishes, (Start_cache bus s).2.1]
    | stop => simp [applyOp, Op.publishes, Stop]
    | complete in_isr err b0 b1 b2 bus =>
      simp only [applyOp, Op.publishes]
      by_cases he : err = ErrorCode.OK
      · subst he
        by_cases hc : frame24 b0 b1 b2 % 64 = u8 (crc6 (frame24 b0 b1 b2 / 64) 18)
        · rw [(complete_cache_of_accept crc6 in_isr b0 b1 b2 bus s hc).2.1, two]
          simp [hc]
        · rw [(complete_cache_of_reject crc6 in_isr b0 b1 b2 bus s hc).2.1]
          simp [hc]
      · rw [(complete_cache_of_error crc6 in_isr err b0 b1 b2 bus s he).2.1]
        simp [he]
  · intro s in_isr bus
    exact (TryStartTransfer_cache in_isr bus s).2.1

/-- Witness of C19: a publication at the largest even counter value wraps
the counter to 0. -/
theorem C19_generation_counter_witness :
    (StoreSample 0 0 { cache_seq := 4294967294 }).cache_seq = 0 :=
  ((C19_generation_counter (fun _ _ => 0)).2.1 0 0 { cache_seq := 4294967294 }).trans
    (by decide)

/-- C20: in every reachable state, with a valid or an empty cache,
`IsFieldTooStrong` and `IsFieldTooWeak` are never both true,
`GetMagnetStrength` is at most 3, `GetRawMg` is at most 15,
`IsFieldTooStrong` holds iff `GetMagnetStrength` is 1 and `IsFieldTooWeak`
holds iff `GetMagnetStrength` is 2; the bound 15 comes from the mask in
`StoreSample`, which keeps the low nibble of whatever byte is stored. -/
theorem C20_strength_code_consistent (crc6 : Nat → Nat → Nat) (s : State)
    (h : Reachable crc6 s) (fuel : Nat) :
    (∃ mg st fs fw,
      GetRawMg (fuel + 1) s = some mg ∧ GetMagnetStrength (fuel + 1) s = some st ∧
      IsFieldTooStrong (fuel + 1) s = some fs ∧ IsFieldTooWeak (fuel + 1) s = some fw ∧
      ¬(fs = true ∧ fw = true) ∧ st ≤ 3 ∧ mg ≤ 15 ∧
      (fs = true ↔ st = 1) ∧ (fw = true ↔ st = 2)) ∧
    (∀ (a : F32) (d : Nat), GetRawMg (fuel + 1) (StoreSample a d s) = some (d % 16)) := by
  obtain ⟨he, _, _, hmg⟩ := Reachable_cache crc6 h
  have hand : ∀ n : Nat, n &&& 0x03 = n % 4 := fun n => Nat.and_pow_two_sub_one_eq_mod n 2
  constructor
  · have key : ∀ mg : Nat, mg ≤ 15 → ReadRawMg (fuel + 1) s = some mg →
        ∃ mg st fs fw,
          GetRawMg (fuel + 1) s = some mg ∧ GetMagnetStrength (fuel + 1) s = some st ∧
          IsFieldTooStrong (fuel + 1) s = some fs ∧
          IsFieldTooWeak (fuel + 1) s = some fw ∧
          ¬(fs = true ∧ fw = true) ∧ st ≤ 3 ∧ mg ≤ 15 ∧
          (fs = true ↔ st = 1) ∧ (fw = true ↔ st = 2) := by
      intro mg hle hr
      refine ⟨mg, u8 (mg &&& 0x03), u8 (mg &&& 0x03) == 1, u8 (mg &&& 0x03) == 2,
        hr, ?_, ?_, ?_, ?_, ?_, hle, ?_, ?_⟩
      · simp [GetMagnetStrength, hr]
      · simp [IsFieldTooStrong, hr]
      · simp [IsFieldTooWeak, hr]
      · rw [hand]
        unfold u8
        simp only [beq_iff_eq]
        omega
      · rw [hand]
        unfold u8
        omega
      · simp
      · simp
    cases hv : s.cache_valid
    · exact key 0 (by omega) (ReadRawMg_empty _ s hv)
    · exact key s.cache_data.raw_mg (by omega) (ReadRawMg_ok fuel s hv he)
  · intro a d
    have h1 : (StoreSample a d s).cache_valid = true := rfl
    have h2 : (StoreSample a d s).cache_seq % 2 = 0 := u32_add_two_even _ he
    unfold GetRawMg
    rw [ReadRawMg_ok fuel _ h1 h2]
    simp only [StoreSample, and_0x0F]
    unfold u8
    have : d % 16 % 256 = d % 16 := by omega
    rw [this]

/-- Witness of C20: the state after the transfer armed by the constructor has
delivered the frame 00 00 C0 (diagnostic 0b0011, check value always 0). -/
theorem C20_strength_code_consistent_witness :
    GetRawMg 1 (StoreSample 0 0xFF (complete (fun _ _ => 0) true ErrorCode.OK 0 0 0xC0
      ErrorCode.OK (construct ErrorCode.OK))) = some (0xFF % 16) :=
  (C20_strength_code_consistent (fun _ _ => 0) _
    (Reachable.complete true ErrorCode.OK 0 0 0xC0 ErrorCode.OK
      (Reachable.construct ErrorCode.OK) (by decide)) 0).2 0 0xFF


/-- C17, as stated, fails.  First, the counter wraps: the sample (0.0, 1) is
published, a reader loads the flag, the counter (2) and the angle 0.0, then
2^31 calls `StoreSample(π, 2)` run and bring the 32-bit counter back to 2, and
the reader copies the diagnostic 2, finds the counter unchanged and returns OK
with (0.0, 2), the angle of one publish and the diagnostic of another.
Second, between the second increment of a call and its validity store a
reader returns EMPTY although the first sample is fully written, and returns
the sample of a later call that has not returned yet. -/
theorem C17_torn_read_counterexample :
    ((({} : Conc).run
        (publishSteps 0 1 ++ [Action.readerStep, Action.readerStep, Action.readerStep] ++
          publishMany (13176795 / 4194304) 2 2147483648 ++
          [Action.readerStep, Action.readerStep])).rpc = ReaderPc.done ErrorCode.OK ∧
      (({} : Conc).run
        (publishSteps 0 1 ++ [Action.readerStep, Action.readerStep, Action.readerStep] ++
          publishMany (13176795 / 4194304) 2 2147483648 ++
          [Action.readerStep, Action.readerStep])).cache = { angle_rad := 0, raw_mg := 2 } ∧
      (({} : Conc).run
        (publishSteps 0 1 ++ [Action.readerStep, Action.readerStep, Action.readerStep] ++
          publishMany (13176795 / 4194304) 2 2147483648 ++
          [Action.readerStep, Action.readerStep])).published =
        { angle_rad := 0, raw_mg := 1 } ::
          List.replicate 2147483648 { angle_rad := 13176795 / 4194304, raw_mg := 2 } ∧
      ({ angle_rad := 0, raw_mg := 2 } : CacheData) ∉
        (({} : Conc).run
          (publishSteps 0 1 ++ [Action.readerStep, Action.readerStep, Action.readerStep] ++
            publishMany (13176795 / 4194304) 2 2147483648 ++
            [Action.readerStep, Action.readerStep])).published) ∧
    ((({} : Conc).run
        [Action.writerCall 0 1, Action.writerStep, Action.writerStep, Action.writerStep,
         Action.readerStep]).rpc = ReaderPc.done ErrorCode.EMPTY ∧
      (({} : Conc).run
        [Action.writerCall 0 1, Action.writerStep, Action.writerStep, Action.writerStep,
         Action.readerStep]).published = [{ angle_rad := 0, raw_mg := 1 }]) ∧
    ((({} : Conc).run
        (publishSteps 0 1 ++
          [Action.writerCall 1 2, Action.writerStep, Action.writerStep, Action.writerStep,
           Action.readerStep, Action.readerStep, Action.readerStep, Action.readerStep,
           Action.readerStep])).rpc = ReaderPc.done ErrorCode.OK ∧
      (({} : Conc).run
        (publishSteps 0 1 ++
          [Action.writerCall 1 2, Action.writerStep, Action.writerStep, Action.writerStep,
           Action.readerStep, Action.readerStep, Action.readerStep, Action.readerStep,
           Action.readerStep])).cache = { angle_rad := 1, raw_mg := 2 } ∧
      (({} : Conc).run
        (publishSteps 0 1 ++
          [Action.writerCall 1 2, Action.writerStep, Action.writerStep, Action.writerStep,
           Action.readerStep, Action.readerStep, Action.readerStep, Action.readerStep,
           Action.readerStep])).wpc = WriterPc.afterInc2 1 2 ∧
      (({} : Conc).run
        (publishSteps 0 1 ++
          [Action.writerCall 1 2, Action.writerStep, Action.writerStep, Action.writerStep,
           Action.readerStep, Action.readerStep, Action.readerStep, Action.readerStep,
           Action.readerStep])).returned = 1) := by
  exact ⟨Conc.torn_read_after_wrap (13176795 / 4194304) 2147483648 (by decide) (by decide)
      (by norm_num),
    ⟨by decide, by decide⟩, ⟨by decide, by decide, by decide, by decide⟩⟩

/-- C17, amended: for every schedule of the loads and stores of one writer
and of a reader, a `LoadCache` that returns OK returns a pair that is the
sample of one single `StoreSample` call which had performed its second
increment, provided the counter was incremented fewer than 2^32 times between
the two counter loads of the returning pass; a `LoadCache` that returns EMPTY
loaded the validity flag before any `StoreSample` call had returned; and
`LoadCache` returns no other status. -/
theorem C17_no_torn_read_below_wrap (sched : List Action) :
    ((({} : Conc).run sched).rpc = ReaderPc.done ErrorCode.OK →
      (({} : Conc).run sched).endIncs < (({} : Conc).run sched).beginIncs + 4294967296 →
      (({} : Conc).run sched).cache ∈ (({} : Conc).run sched).published) ∧
    ((({} : Conc).run sched).rpc = ReaderPc.done ErrorCode.EMPTY →
      (({} : Conc).run sched).returnedAtValid = 0) ∧
    (∀ n, (({} : Conc).run sched).rpc ≠ ReaderPc.done (ErrorCode.OTHER n)) := by
  have hr := (Conc.inv_run sched).2
  unfold Conc.ReaderInv at hr
  refine ⟨?_, ?_, ?_⟩
  · intro h
    rw [h] at hr
    exact hr
  · intro h
    rw [h] at hr
    exact hr
  · intro n h
    rw [h] at hr
    exact hr

/-- Witness of C17 (amended): the sample (π, 5) is written up to its second
increment while a reader is between its loads, and the reader's second pass
returns it. -/
theorem C17_no_torn_read_below_wrap_witness :
    (({} : Conc).run
        (publishSteps 0 1 ++
          [Action.readerStep, Action.readerStep, Action.writerCall (13176795 / 4194304) 5,
           Action.readerStep, Action.writerStep, Action.readerStep, Action.writerStep,
           Action.writerStep, Action.readerStep, Action.readerStep, Action.readerStep,
           Action.readerStep, Action.readerStep])).rpc = ReaderPc.done ErrorCode.OK ∧
    (({} : Conc).run
        (publishSteps 0 1 ++
          [Action.readerStep, Action.readerStep, Action.writerCall (13176795 / 4194304) 5,
           Action.readerStep, Action.writerStep, Action.readerStep, Action.writerStep,
           Action.writerStep, Action.readerStep, Action.readerStep, Action.readerStep,
           Action.readerStep, Action.readerStep])).cache ∈
      [{ angle_rad := 0, raw_mg := 1 }, { angle_rad := 13176795 / 4194304, raw_mg := 5 }] :=
  ⟨by decide,
   (C17_no_torn_read_below_wrap
      (publishSteps 0 1 ++
        [Action.readerStep, Action.readerStep, Action.writerCall (13176795 / 4194304) 5,
         Action.readerStep, Action.writerStep, Action.readerStep, Action.writerStep,
         Action.writerStep, Action.readerStep, Action.readerStep, Action.readerStep,
         Action.readerStep, Action.readerStep])).1 (by decide) (by decide)⟩

end MT6701
